import Mathlib

set_option linter.unusedVariables false
set_option linter.unnecessarySimpa false

/-! Shallow embedding of the Chat-Api presence-and-delivery core: the
in-memory connection registry, the message-store operations of
`messages.service.ts` (the variant with validation, limits and recent
deletions) and the socket gateway handlers of `chat.gateway.ts`.
Object ids are modelled as `Nat`, timestamps as `Nat` milliseconds and
floating point coordinates as rationals. -/

/-- One live transport session (interface `SocketUser` in `chat.gateway.ts`). -/
structure Conn where
  socketId : String
  userId : String
  username : String
  avatar : Option String
deriving Repr, DecidableEq

/-- Persisted user record (`users.schema.ts`) with its `online` flag. -/
structure User where
  id : String
  username : String
  avatar : Option String
  online : Bool
deriving Repr, DecidableEq

/-- Message types (the `MessageType` enum of `messages.schema.ts`). -/
inductive MsgType
  | text | emoji | gif | sticker | file | location | webview
deriving Repr, DecidableEq

/-- Persisted message document (`messages.schema.ts`). -/
structure Msg where
  id : Nat
  from_ : String
  to_ : String
  type : MsgType
  text : Option String
  fileUrl : Option String
  fileName : Option String
  fileSize : Option Int
  fileType : Option String
  latitude : Option Rat
  longitude : Option Rat
  isLive : Bool
  webUrl : Option String
  webTitle : Option String
  webDescription : Option String
  webImageUrl : Option String
  delivered : Bool
  seen : Bool
  deletedBy : List String
  groupId : Option String
  createdAt : Nat
  updatedAt : Nat
deriving Repr, DecidableEq

/-- A fresh message document with all optional fields absent and the
schema defaults (`delivered:false`, `seen:false`, `deletedBy:[]`). -/
def baseMsg (id : Nat) (f t : String) (ty : MsgType) (now : Nat) : Msg :=
  { id := id, from_ := f, to_ := t, type := ty, text := none, fileUrl := none,
    fileName := none, fileSize := none, fileType := none, latitude := none,
    longitude := none, isLive := false, webUrl := none, webTitle := none,
    webDescription := none, webImageUrl := none, delivered := false,
    seen := false, deletedBy := [], groupId := none,
    createdAt := now, updatedAt := now }

/-- The message collection plus the id counter used to mint fresh ids. -/
structure MsgStore where
  msgs : List Msg
  nextId : Nat
deriving Repr, DecidableEq

abbrev SaveRes := Except String (Msg × MsgStore)

/-- Whether a save succeeded (exception-free in the TypeScript source). -/
def saveOk : SaveRes → Bool
  | .ok _ => true
  | .error _ => false

/-! ### Connection registry (the gateway's `connected` map)

A JavaScript `Map` keyed by `userId` in insertion order, modelled as an
association list. -/

abbrev Registry := List (String × List Conn)

/-- `connected.get(uid) || []`. -/
def getConn : Registry → String → List Conn
  | [], _ => []
  | p :: ps, uid => if p.1 = uid then p.2 else getConn ps uid

/-- `connected.set(uid, v)`: replace the entry if present, else append. -/
def setConn : Registry → String → List Conn → Registry
  | [], uid, v => [(uid, v)]
  | p :: ps, uid, v => if p.1 = uid then (uid, v) :: ps else p :: setConn ps uid v

/-- `connected.delete(uid)`. -/
def deleteConn : Registry → String → Registry
  | [], _ => []
  | p :: ps, uid => if p.1 = uid then ps else p :: deleteConn ps uid

/-- All connections of all users, in map iteration order
(`Array.from(this.connected.values()).flat()`). -/
def allConns : Registry → List Conn
  | [] => []
  | p :: ps => p.2 ++ allConns ps

/-- `Array.from(this.connected.values()).flat().find(c => c.socketId === id)`. -/
def findConnBySocket (reg : Registry) (sid : String) : Option Conn :=
  (allConns reg).find? (fun c => decide (c.socketId = sid))

/-! ### Users service (`users.service.ts`) -/

/-- `userModel.findById(id)`. -/
def findUserById (us : List User) (uid : String) : Option User :=
  us.find? (fun u => decide (u.id = uid))

/-- `setOnline`: `updateOne({_id}, {$set:{online}})` — updates the first
(and by `_id` uniqueness only) matching record. -/
def setUserOnline : List User → String → Bool → List User
  | [], _, _ => []
  | u :: us, uid, b =>
    if u.id = uid then { u with online := b } :: us else u :: setUserOnline us uid b

/-! ### Messages service (`messages.service.ts`, rich variant) -/

/-- Insertion sort of messages by descending `createdAt`
(the Mongo `.sort(\x7bcreatedAt: -1\x7d)` step). -/
def insertByDesc (m : Msg) : List Msg → List Msg
  | [] => [m]
  | x :: xs => if x.createdAt ≤ m.createdAt then m :: x :: xs else x :: insertByDesc m xs

/-- Sort a message list by descending `createdAt`. -/
def sortByDesc : List Msg → List Msg
  | [] => []
  | x :: xs => insertByDesc x (sortByDesc xs)

/-- JS `String.prototype.trim`: drop leading and trailing whitespace
(structurally recursive so that it evaluates inside proofs). -/
def trimStr (s : String) : String :=
  ⟨((s.data.dropWhile Char.isWhitespace).reverse.dropWhile Char.isWhitespace).reverse⟩

/-- `save`: reject empty/whitespace text, trim, persist with the given
type (default `text`) and optional group id. -/
def saveText (s : MsgStore) (f t text : String) (ty : MsgType)
    (groupId : Option String) (now : Nat) : SaveRes :=
  if trimStr text = "" then .error "Message text cannot be empty"
  else
    let m := { baseMsg s.nextId f t ty now with text := some (trimStr text), groupId := groupId }
    .ok (m, { msgs := s.msgs ++ [m], nextId := s.nextId + 1 })

/-- `saveEmoji`: reject empty emoji, persist trimmed text with type emoji. -/
def saveEmoji (s : MsgStore) (f t emoji : String) (now : Nat) : SaveRes :=
  if trimStr emoji = "" then .error "Emoji cannot be empty"
  else
    let m := { baseMsg s.nextId f t MsgType.emoji now with text := some (trimStr emoji) }
    .ok (m, { msgs := s.msgs ++ [m], nextId := s.nextId + 1 })

/-- `saveGif`: reject empty url, persist trimmed url as text with type gif. -/
def saveGif (s : MsgStore) (f t gifUrl : String) (now : Nat) : SaveRes :=
  if trimStr gifUrl = "" then .error "GIF URL cannot be empty"
  else
    let m := { baseMsg s.nextId f t MsgType.gif now with text := some (trimStr gifUrl) }
    .ok (m, { msgs := s.msgs ++ [m], nextId := s.nextId + 1 })

/-- `saveSticker`: reject empty url, persist trimmed url with type sticker. -/
def saveSticker (s : MsgStore) (f t stickerUrl : String) (now : Nat) : SaveRes :=
  if trimStr stickerUrl = "" then .error "Sticker URL cannot be empty"
  else
    let m := { baseMsg s.nextId f t MsgType.sticker now with text := some (trimStr stickerUrl) }
    .ok (m, { msgs := s.msgs ++ [m], nextId := s.nextId + 1 })

/-- `saveFile`: reject a falsy url or name and a non-positive size. -/
def saveFile (s : MsgStore) (f t fileUrl fileName : String) (fileSize : Int)
    (fileType : String) (now : Nat) : SaveRes :=
  if fileUrl = "" ∨ fileName = "" ∨ fileSize ≤ 0 then
    .error "Invalid file data provided"
  else
    let m := { baseMsg s.nextId f t MsgType.file now with
      fileUrl := some fileUrl, fileName := some fileName,
      fileSize := some fileSize, fileType := some fileType }
    .ok (m, { msgs := s.msgs ++ [m], nextId := s.nextId + 1 })

/-- `saveLocation`: reject coordinates outside [-90,90] x [-180,180]. -/
def saveLocation (s : MsgStore) (f t : String) (lat lon : Rat) (isLive : Bool)
    (now : Nat) : SaveRes :=
  if lat < -90 ∨ lat > 90 ∨ lon < -180 ∨ lon > 180 then
    .error "Invalid coordinates provided"
  else
    let m := { baseMsg s.nextId f t MsgType.location now with
      latitude := some lat, longitude := some lon, isLive := isLive }
    .ok (m, { msgs := s.msgs ++ [m], nextId := s.nextId + 1 })

/-- `saveWebView`: reject an empty url, persist trimmed webview fields. -/
def saveWebView (s : MsgStore) (f t url : String)
    (title description imageUrl : Option String) (now : Nat) : SaveRes :=
  if trimStr url = "" then .error "Web URL cannot be empty"
  else
    let m := { baseMsg s.nextId f t MsgType.webview now with
      webUrl := some (trimStr url), webTitle := title.map trimStr,
      webDescription := description.map trimStr,
      webImageUrl := imageUrl.map trimStr }
    .ok (m, { msgs := s.msgs ++ [m], nextId := s.nextId + 1 })

/-- `findById`. -/
def findMsg (s : MsgStore) (id : Nat) : Option Msg :=
  s.msgs.find? (fun m => decide (m.id = id))

/-- `markDelivered(ids)`: `updateMany({_id:{$in:ids}}, {$set:{delivered:true}})`
(with the `timestamps` option also refreshing `updatedAt`). -/
def markDeliveredStore (s : MsgStore) (ids : List Nat) (now : Nat) : MsgStore :=
  { s with msgs := s.msgs.map (fun m =>
      if m.id ∈ ids then { m with delivered := true, updatedAt := now } else m) }

/-- `$addToSet`: append only when absent. -/
def addToSet (uid : String) (l : List String) : List String :=
  if uid ∈ l then l else l ++ [uid]

/-- `deleteOne({_id:id})`: remove the first (unique) matching record. -/
def removeMsg : List Msg → Nat → List Msg
  | [], _ => []
  | m :: ms, id => if m.id = id then ms else m :: removeMsg ms id

/-- `updateOne({_id:id}, {$addToSet:{deletedBy:uid}})` on the first match. -/
def softDeleteMsg : List Msg → Nat → String → Nat → List Msg
  | [], _, _, _ => []
  | m :: ms, id, uid, now =>
    if m.id = id then { m with deletedBy := addToSet uid m.deletedBy, updatedAt := now } :: ms
    else m :: softDeleteMsg ms id uid now

/-- `markDeleted(id, userId)`: not-found and non-participant requests
throw; the sender hard-deletes the record, the recipient is added to
`deletedBy`. -/
def markDeletedStore (s : MsgStore) (id : Nat) (uid : String) (now : Nat) :
    Except String MsgStore :=
  match findMsg s id with
  | none => .error "Message not found"
  | some m =>
    if m.from_ ≠ uid ∧ m.to_ ≠ uid then
      .error "You can only delete your own messages"
    else if m.from_ = uid then .ok { s with msgs := removeMsg s.msgs id }
    else .ok { s with msgs := softDeleteMsg s.msgs id uid now }

/-- `getConversation(a, b)` with the default pagination (limit 50, skip 0):
direct messages between `a` and `b`, excluding those `a` deleted, newest
50 first, returned in chronological order. -/
def getConversation (s : MsgStore) (a b : String) : List Msg :=
  ((sortByDesc (s.msgs.filter (fun m =>
      ((decide (m.from_ = a) && decide (m.to_ = b)) ||
       (decide (m.from_ = b) && decide (m.to_ = a))) &&
      m.groupId.isNone && !(decide (a ∈ m.deletedBy))))).take 50).reverse

/-- `getPendingFor(userId, limit)`: undelivered messages to the user not
deleted by the user, the `limit` newest, in chronological order. -/
def getPendingFor (s : MsgStore) (uid : String) (limit : Nat) : List Msg :=
  ((sortByDesc (s.msgs.filter (fun m =>
      decide (m.to_ = uid) && !m.delivered && !(decide (uid ∈ m.deletedBy))))).take limit).reverse

/-- The deletion replay record produced by `getRecentDeletionsForUser`. -/
structure DeletionEvent where
  messageId : Nat
  deletedBy : List String
  conversationId : String
  deletedAt : Nat
deriving Repr, DecidableEq

/-- `getRecentDeletionsForUser(userId, since?)`: messages touching the user
with a non-empty `deletedBy` updated at or after the cutoff, mapped to
deletion events whose `conversationId` is `from + "-" + to`. -/
def getRecentDeletionsForUser (s : MsgStore) (uid : String) (cutoff : Nat) :
    List DeletionEvent :=
  (s.msgs.filter (fun m =>
      (decide (m.from_ = uid) || decide (m.to_ = uid)) &&
      !m.deletedBy.isEmpty && decide (cutoff ≤ m.updatedAt))).map
    (fun m => ⟨m.id, m.deletedBy, m.from_ ++ "-" ++ m.to_, m.updatedAt⟩)

/-! ### Gateway state, inbound payloads and observable actions -/

/-- Inbound `message` event payload (interface `MessageEvent`). -/
structure MessageEvent where
  to_ : String
  text : String
  type : Option String
  fileName : Option String
  fileSize : Option Int
  fileType : Option String
  groupId : Option String
deriving Repr, DecidableEq

/-- Inbound `location` event payload (interface `LocationEvent`). -/
structure LocationEvent where
  to_ : String
  latitude : Rat
  longitude : Rat
  isLive : Option Bool
deriving Repr, DecidableEq

/-- Inbound `webview` event payload (interface `WebViewEvent`). -/
structure WebViewEvent where
  to_ : String
  url : String
  title : Option String
  description : Option String
  imageUrl : Option String
deriving Repr, DecidableEq

/-- Inbound `typing` event payload (interface `TypingEvent`). -/
structure TypingEvent where
  to_ : String
  typing : Bool
deriving Repr, DecidableEq

/-- Outbound composed message payload (interface `MessageData`). -/
structure MessageData where
  id : Nat
  from_ : String
  to_ : String
  type : String
  text : Option String
  fileName : Option String
  fileSize : Option Int
  fileType : Option String
  groupId : Option String
  createdAt : Nat
  avatar : Option String
  username : String
  latitude : Option Rat
  longitude : Option Rat
  isLive : Option Bool
  webUrl : Option String
  webTitle : Option String
  webDescription : Option String
  webImageUrl : Option String
deriving Repr, DecidableEq

/-- Payloads of outbound socket events. -/
inductive Payload where
  | errorMsg (s : String)
  | msgData (d : MessageData)
  | usersList (us : List User)
  | pendingBatch (ms : List Msg)
  | deleted (id : Nat) (deletedBy : String) (conversationId : String)
  | deletedReplay (id : Nat) (deletedBy : List String) (conversationId : String)
  | typingData (from_ : String) (username : String) (typing : Bool)
  | conversationData (ms : List Msg)
  | status (userId : String) (online : Bool)
deriving Repr, DecidableEq

/-- Observable effects of one handler invocation, in program order:
socket emissions, server-wide broadcasts, persistence calls to the
collaborating services and transport disconnects. -/
inductive Act where
  | emit (socketId : String) (event : String) (payload : Payload)
  | broadcast (event : String) (payload : Payload)
  | broadcastExcept (socketId : String) (event : String) (payload : Payload)
  | setOnline (userId : String) (online : Bool)
  | markDelivered (ids : List Nat)
  | disconnectClient (socketId : String)
deriving Repr, DecidableEq

/-- The gateway's mutable world: the in-memory `connected` map plus the
persisted users, groups and messages reached through the services. -/
structure GWState where
  connected : Registry
  users : List User
  groups : List (String × List String)
  msgs : MsgStore
deriving Repr, DecidableEq

/-- Result of one handler invocation: the new state, the action trace and
whether an exception escaped the handler to the framework. -/
structure HOut where
  st : GWState
  acts : List Act
  escaped : Bool
deriving Repr, DecidableEq

/-- `groupsService.findById(groupId)`: the member list of a group. -/
def findGroup (gs : List (String × List String)) (gid : String) : Option (List String) :=
  (gs.find? (fun p => decide (p.1 = gid))).map Prod.snd

/-- Connection cap per user (`maxConnectionsPerUser = 5`). -/
def maxConnectionsPerUser : Nat := 5

/-- Milliseconds in the 24-hour recent-deletion window. -/
def msPerDay : Nat := 86400000

/-! ### Gateway handlers (`chat.gateway.ts`) -/

/-- `handleConnection`: authenticate, enforce the connection cap, register
the socket, persist `online=true`, broadcast the user list, flush pending
messages and replay recent deletions. The `auth` argument is the user id
produced by the external jwt verification (`none` when that fails). -/
def handleConnection (st : GWState) (client : String) (auth : Option String)
    (now : Nat) : HOut :=
  match auth with
  | none => ⟨st, [.disconnectClient client], false⟩
  | some uid =>
    match findUserById st.users uid with
    | none => ⟨st, [.disconnectClient client], false⟩
    | some u =>
      let userSockets := getConn st.connected uid
      if maxConnectionsPerUser ≤ userSockets.length then
        ⟨st, [.emit client "error" (.errorMsg "Maximum connections exceeded"),
              .disconnectClient client], false⟩
      else
        let connected' := setConn st.connected uid
          (userSockets ++ [⟨client, uid, u.username, u.avatar⟩])
        let users' := setUserOnline st.users uid true
        let acts0 := [Act.setOnline uid true,
                      Act.broadcast "users:updated" (.usersList users')]
        let pending := getPendingFor st.msgs uid 20
        let msgs1 :=
          if pending.isEmpty then st.msgs
          else markDeliveredStore st.msgs (pending.map (fun p => p.id)) now
        let acts1 :=
          if pending.isEmpty then []
          else [Act.emit client "messages:pending" (.pendingBatch pending),
                Act.markDelivered (pending.map (fun p => p.id))]
        let dels := getRecentDeletionsForUser msgs1 uid (now - msPerDay)
        let acts2 := dels.map (fun d =>
          Act.emit client "message:deleted"
            (.deletedReplay d.messageId d.deletedBy d.conversationId))
        ⟨{ st with connected := connected', users := users', msgs := msgs1 },
         acts0 ++ acts1 ++ acts2, false⟩

/-- `handleDisconnect`: find the entry owning the socket, splice the
socket out; when the entry empties, drop it, persist `online=false` and
broadcast the user list. -/
def handleDisconnect (st : GWState) (client : String) : HOut :=
  match st.connected.find? (fun e => e.2.any (fun c => decide (c.socketId = client))) with
  | none => ⟨st, [], false⟩
  | some (uid, socks) =>
    let socks' := socks.eraseIdx (socks.findIdx (fun c => decide (c.socketId = client)))
    if socks'.isEmpty then
      let users' := setUserOnline st.users uid false
      ⟨{ st with connected := deleteConn st.connected uid, users := users' },
       [Act.setOnline uid false,
        Act.broadcast "users:updated" (.usersList users')], false⟩
    else
      ⟨{ st with connected := setConn st.connected uid socks' }, [], false⟩

/-- `handleTyping`: relay a typing event to every connection of the
target user; silently a no-op for unregistered senders. -/
def handleTyping (st : GWState) (client : String) (p : TypingEvent) : HOut :=
  match findConnBySocket st.connected client with
  | none => ⟨st, [], false⟩
  | some fu =>
    let toConn := getConn st.connected p.to_
    ⟨st, toConn.map (fun cn =>
        Act.emit cn.socketId "typing" (.typingData fu.userId fu.username p.typing)), false⟩

/-- The valid inbound message types checked by `handleMessage`. -/
def validTypes : List String :=
  ["text", "emoji", "gif", "sticker", "file", "location", "webview"]

/-- The per-type persistence branch of `handleMessage`: text through
`save`, emoji/gif/sticker/file through their dedicated paths, any other
valid type through plain `save` (persisted as text). -/
def saveForType (s : MsgStore) (fromId : String) (p : MessageEvent) (now : Nat) : SaveRes :=
  if p.type.getD "text" = "text" then saveText s fromId p.to_ p.text MsgType.text p.groupId now
  else if p.type.getD "text" = "emoji" then saveEmoji s fromId p.to_ p.text now
  else if p.type.getD "text" = "gif" then saveGif s fromId p.to_ p.text now
  else if p.type.getD "text" = "sticker" then saveSticker s fromId p.to_ p.text now
  else if p.type.getD "text" = "file" then
    saveFile s fromId p.to_ p.text
      (match p.fileName with | none => "file" | some n => if n = "" then "file" else n)
      (p.fileSize.getD 0)
      (match p.fileType with | none => "application/octet-stream"
                             | some ft => if ft = "" then "application/octet-stream" else ft)
      now
  else saveText s fromId p.to_ p.text MsgType.text p.groupId now

/-- The composed outbound payload built by `handleMessage`. -/
def mkMessageData (saved : Msg) (fu : Conn) (p : MessageEvent) (t : String) : MessageData :=
  { id := saved.id, from_ := fu.userId, to_ := p.to_, type := t, text := some p.text,
    fileName := p.fileName, fileSize := p.fileSize, fileType := p.fileType,
    groupId := p.groupId, createdAt := saved.createdAt, avatar := fu.avatar,
    username := fu.username, latitude := none, longitude := none, isLive := none,
    webUrl := none, webTitle := none, webDescription := none, webImageUrl := none }

/-- The group broadcast loop of `handleMessage`: for each member with live
connections, emit to every connection except the originating socket and
call `markDelivered([id])` once for that member. -/
def groupFanout (reg : Registry) (client : String) (data : MessageData) (mid : Nat)
    (now : Nat) : List String → MsgStore → MsgStore × List Act
  | [], s => (s, [])
  | mem :: ms, s =>
    let mconns := getConn reg mem
    if mconns.isEmpty then groupFanout reg client data mid now ms s
    else
      let emits := mconns.filterMap (fun cn =>
        if cn.socketId = client then none
        else some (Act.emit cn.socketId "message" (.msgData data)))
      let res := groupFanout reg client data mid now ms (markDeliveredStore s [mid] now)
      (res.1, emits ++ [Act.markDelivered [mid]] ++ res.2)

/-- `handleMessage`: authorize by socket, validate the type, persist by
type, echo to the sender, fan out to the direct recipient's connections
with one `markDelivered`, then run the group broadcast loop; any thrown
error is caught and reported as a single `error` emit. -/
def handleMessage (st : GWState) (client : String) (p : MessageEvent) (now : Nat) : HOut :=
  match findConnBySocket st.connected client with
  | none => ⟨st, [.emit client "error" (.errorMsg "Unauthorized")], false⟩
  | some fu =>
    let t := p.type.getD "text"
    if !(validTypes.contains t) then
      ⟨st, [.emit client "error" (.errorMsg "Invalid message type")], false⟩
    else
      match saveForType st.msgs fu.userId p now with
      | .error _ => ⟨st, [.emit client "error" (.errorMsg "Failed to send message")], false⟩
      | .ok (saved, msgs1) =>
        let data := mkMessageData saved fu p t
        let toConn := getConn st.connected p.to_
        let msgs2 :=
          if toConn.isEmpty then msgs1 else markDeliveredStore msgs1 [saved.id] now
        let acts1 :=
          if toConn.isEmpty then []
          else toConn.map (fun cn => Act.emit cn.socketId "message" (.msgData data)) ++
               [Act.markDelivered [saved.id]]
        let grp :=
          match p.groupId with
          | none => (msgs2, [])
          | some gid =>
            match findGroup st.groups gid with
            | none => (msgs2, [])
            | some members => groupFanout st.connected client data saved.id now members msgs2
        ⟨{ st with msgs := grp.1 },
         Act.emit client "message" (.msgData data) :: acts1 ++ grp.2, false⟩

/-- The composed outbound payload built by `handleLocation`. -/
def mkLocationData (saved : Msg) (fu : Conn) (p : LocationEvent) : MessageData :=
  { id := saved.id, from_ := fu.userId, to_ := p.to_, type := "location",
    text := none, fileName := none, fileSize := none, fileType := none,
    groupId := none, createdAt := saved.createdAt, avatar := fu.avatar,
    username := fu.username, latitude := some p.latitude,
    longitude := some p.longitude, isLive := some (p.isLive.getD false),
    webUrl := none, webTitle := none, webDescription := none, webImageUrl := none }

/-- The composed outbound payload built by `handleWebView`. -/
def mkWebViewData (saved : Msg) (fu : Conn) (p : WebViewEvent) : MessageData :=
  { id := saved.id, from_ := fu.userId, to_ := p.to_, type := "webview",
    text := none, fileName := none, fileSize := none, fileType := none,
    groupId := none, createdAt := saved.createdAt, avatar := fu.avatar,
    username := fu.username, latitude := none, longitude := none, isLive := none,
    webUrl := some p.url, webTitle := p.title, webDescription := p.description,
    webImageUrl := p.imageUrl }

/-- `handleLocation`: persist through `saveLocation` (whose validation
failure escapes the handler — there is no try/catch), echo to the sender,
fan out to the recipient's connections and mark delivered. -/
def handleLocation (st : GWState) (client : String) (p : LocationEvent) (now : Nat) : HOut :=
  match findConnBySocket st.connected client with
  | none => ⟨st, [], false⟩
  | some fu =>
    match saveLocation st.msgs fu.userId p.to_ p.latitude p.longitude
        (p.isLive.getD false) now with
    | .error _ => ⟨st, [], true⟩
    | .ok (saved, msgs1) =>
      let data := mkLocationData saved fu p
      let toConn := getConn st.connected p.to_
      if toConn.isEmpty then
        ⟨{ st with msgs := msgs1 }, [Act.emit client "message" (.msgData data)], false⟩
      else
        ⟨{ st with msgs := markDeliveredStore msgs1 [saved.id] now },
         Act.emit client "message" (.msgData data) ::
           toConn.map (fun cn => Act.emit cn.socketId "message" (.msgData data)) ++
           [Act.markDelivered [saved.id]], false⟩

/-- `handleWebView`: persist through `saveWebView` (validation failure
escapes — no try/catch), echo, fan out, mark delivered. -/
def handleWebView (st : GWState) (client : String) (p : WebViewEvent) (now : Nat) : HOut :=
  match findConnBySocket st.connected client with
  | none => ⟨st, [], false⟩
  | some fu =>
    match saveWebView st.msgs fu.userId p.to_ p.url p.title p.description p.imageUrl now with
    | .error _ => ⟨st, [], true⟩
    | .ok (saved, msgs1) =>
      let data := mkWebViewData saved fu p
      let toConn := getConn st.connected p.to_
      if toConn.isEmpty then
        ⟨{ st with msgs := msgs1 }, [Act.emit client "message" (.msgData data)], false⟩
      else
        ⟨{ st with msgs := markDeliveredStore msgs1 [saved.id] now },
         Act.emit client "message" (.msgData data) ::
           toConn.map (fun cn => Act.emit cn.socketId "message" (.msgData data)) ++
           [Act.markDelivered [saved.id]], false⟩

/-- `handleGetConversation`: reply with the direct conversation. -/
def handleGetConversation (st : GWState) (client : String) (withUserId : String) : HOut :=
  match findConnBySocket st.connected client with
  | none => ⟨st, [], false⟩
  | some fu =>
    ⟨st, [Act.emit client "conversation"
      (.conversationData (getConversation st.msgs fu.userId withUserId))], false⟩

/-- `handleUserOnline`: only for a registered socket whose user matches
the payload; persists `online=true` and broadcasts a status update to
every other client, never touching the connection registry. -/
def handleUserOnline (st : GWState) (client : String) (uid : String) : HOut :=
  match findConnBySocket st.connected client with
  | none => ⟨st, [], false⟩
  | some fu =>
    if fu.userId = uid then
      ⟨{ st with users := setUserOnline st.users uid true },
       [Act.setOnline uid true,
        Act.broadcastExcept client "userStatusUpdate" (.status uid true)], false⟩
    else ⟨st, [], false⟩

/-- `handleUserOffline`: mirror image of `handleUserOnline`. -/
def handleUserOffline (st : GWState) (client : String) (uid : String) : HOut :=
  match findConnBySocket st.connected client with
  | none => ⟨st, [], false⟩
  | some fu =>
    if fu.userId = uid then
      ⟨{ st with users := setUserOnline st.users uid false },
       [Act.setOnline uid false,
        Act.broadcastExcept client "userStatusUpdate" (.status uid false)], false⟩
    else ⟨st, [], false⟩

/-- `handleDeleteMessage`: authorize the requester as a participant,
execute `markDeleted`, then emit `message:deleted` (with conversation id
`from + "-" + to` of the message) to every connection of both
participants and once more to the requesting socket. -/
def handleDeleteMessage (st : GWState) (client : String) (mid : Nat) (now : Nat) : HOut :=
  match findConnBySocket st.connected client with
  | none => ⟨st, [.emit client "error" (.errorMsg "Unauthorized")], false⟩
  | some fu =>
    match findMsg st.msgs mid with
    | none => ⟨st, [.emit client "error" (.errorMsg "Message not found")], false⟩
    | some msg =>
      if msg.from_ ≠ fu.userId ∧ msg.to_ ≠ fu.userId then
        ⟨st, [.emit client "error" (.errorMsg "You can only delete your own messages")], false⟩
      else
        match markDeletedStore st.msgs mid fu.userId now with
        | .error e => ⟨st, [.emit client "error" (.errorMsg e)], false⟩
        | .ok msgs' =>
          let convId := msg.from_ ++ "-" ++ msg.to_
          let fan := [msg.from_, msg.to_].foldr (fun pid acc =>
            (getConn st.connected pid).map (fun cn =>
              Act.emit cn.socketId "message:deleted" (.deleted mid fu.userId convId))
            ++ acc) []
          ⟨{ st with msgs := msgs' },
           fan ++ [Act.emit client "message:deleted" (.deleted mid fu.userId convId)],
           false⟩

/-! ### Event-level semantics: every inbound protocol event, and runs -/

/-- One inbound protocol event, with the data the external world supplies
to its handler (verified auth payload, wall-clock time). -/
inductive Event where
  | evConnect (client : String) (auth : Option String) (now : Nat)
  | evDisconnect (client : String)
  | evTyping (client : String) (p : TypingEvent)
  | evMessage (client : String) (p : MessageEvent) (now : Nat)
  | evLocation (client : String) (p : LocationEvent) (now : Nat)
  | evWebView (client : String) (p : WebViewEvent) (now : Nat)
  | evGetConversation (client : String) (withUserId : String)
  | evUserOnline (client : String) (userId : String)
  | evUserOffline (client : String) (userId : String)
  | evDeleteMessage (client : String) (id : Nat) (now : Nat)
deriving Repr, DecidableEq

/-- Dispatch one inbound event to its gateway handler. -/
def applyEvent (st : GWState) : Event → HOut
  | .evConnect c a now => handleConnection st c a now
  | .evDisconnect c => handleDisconnect st c
  | .evTyping c p => handleTyping st c p
  | .evMessage c p now => handleMessage st c p now
  | .evLocation c p now => handleLocation st c p now
  | .evWebView c p now => handleWebView st c p now
  | .evGetConversation c w => handleGetConversation st c w
  | .evUserOnline c u => handleUserOnline st c u
  | .evUserOffline c u => handleUserOffline st c u
  | .evDeleteMessage c i now => handleDeleteMessage st c i now

/-- Run a sequence of inbound events from a state. -/
def runEvents (st : GWState) : List Event → GWState
  | [] => st
  | e :: es => runEvents (applyEvent st e).st es

/-- A gateway state with no live connections and the given persisted data. -/
def initGW (users : List User) (groups : List (String × List String)) : GWState :=
  { connected := [], users := users, groups := groups, msgs := { msgs := [], nextId := 0 } }

/-! ### Trace inspection helpers -/

/-- Number of `setOnline` persistence calls for a user with a given flag. -/
def setOnlineCalls (uid : String) (b : Bool) (acts : List Act) : Nat :=
  (acts.filter (fun a => match a with
    | .setOnline u o => decide (u = uid) && decide (o = b)
    | _ => false)).length

/-- Number of `users:updated` presence broadcasts in a trace. -/
def usersUpdatedBroadcasts (acts : List Act) : Nat :=
  (acts.filter (fun a => match a with
    | .broadcast e _ => decide (e = "users:updated")
    | _ => false)).length

/-- The id lists of the `markDelivered` calls in a trace, in order. -/
def markDeliveredCalls (acts : List Act) : List (List Nat) :=
  acts.filterMap (fun a => match a with
    | .markDelivered ids => some ids
    | _ => none)

/-- The `error` emissions in a trace, as (socket, message) pairs. -/
def errorEmits (acts : List Act) : List (String × String) :=
  acts.filterMap (fun a => match a with
    | .emit s "error" (.errorMsg m) => some (s, m)
    | _ => none)

/-- The conversation ids carried by `message:deleted` emissions (both live
broadcasts and offline replays). -/
def deletionConvIds (acts : List Act) : List String :=
  acts.filterMap (fun a => match a with
    | .emit _ "message:deleted" (.deleted _ _ c) => some c
    | .emit _ "message:deleted" (.deletedReplay _ _ c) => some c
    | _ => none)

/-- The reconnect-sync actions of a trace: `messages:pending` emissions
and `markDelivered` calls, in order. -/
def syncActs (acts : List Act) : List Act :=
  acts.filter (fun a => match a with
    | .emit _ "messages:pending" _ => true
    | .markDelivered _ => true
    | _ => false)

/-- Whether every message with this id in the store is delivered. -/
def deliveredInStore (s : MsgStore) (id : Nat) : Prop :=
  ∀ m ∈ s.msgs, m.id = id → m.delivered = true

/-- Whether every message with this id in the store is undelivered. -/
def undeliveredInStore (s : MsgStore) (id : Nat) : Prop :=
  ∀ m ∈ s.msgs, m.id = id → m.delivered = false

instance (s : MsgStore) (id : Nat) : Decidable (deliveredInStore s id) := by
  unfold deliveredInStore
  infer_instance

instance (s : MsgStore) (id : Nat) : Decidable (undeliveredInStore s id) := by
  unfold undeliveredInStore
  infer_instance

/-- The connection-cap invariant: no presence entry of the registry holds
more than `maxConnectionsPerUser` connections. -/
def capInv (st : GWState) : Prop :=
  ∀ p ∈ st.connected, p.2.length ≤ maxConnectionsPerUser

/-! ### Shared helper lemmas -/

theorem filter_map_of_false {α : Type} (p : Act → Bool) (g : α → Act) (l : List α)
    (h : ∀ x, p (g x) = false) : (l.map g).filter p = [] := by
  induction l with
  | nil => rfl
  | cons a l ih => simp [List.filter_cons, h, ih]

theorem setOnlineCalls_append (uid : String) (b : Bool) (l1 l2 : List Act) :
    setOnlineCalls uid b (l1 ++ l2) = setOnlineCalls uid b l1 + setOnlineCalls uid b l2 := by
  simp [setOnlineCalls, List.filter_append]

theorem usersUpdatedBroadcasts_append (l1 l2 : List Act) :
    usersUpdatedBroadcasts (l1 ++ l2) =
      usersUpdatedBroadcasts l1 + usersUpdatedBroadcasts l2 := by
  simp [usersUpdatedBroadcasts, List.filter_append]

theorem length_eraseIdx_ge (l : List Conn) (i : Nat) :
    l.length - 1 ≤ (l.eraseIdx i).length := by
  induction l generalizing i with
  | nil => simp [List.eraseIdx]
  | cons a t ih =>
    cases i with
    | zero => simp [List.eraseIdx]
    | succ j =>
      have := ih j
      simp only [List.eraseIdx, List.length_cons]
      omega

/-! ### C1 -/

def c1State : GWState :=
  ⟨[("u1", [⟨"s1", "u1", "alice", none⟩])], [⟨"u1", "alice", none, true⟩], [], ⟨[], 0⟩⟩

/-- C1, counterexample: user `u1` already has exactly one live connection
(a 1 to 2 transition), yet handling a second connect performs one
`setOnline(true)` persistence call and one `users:updated` broadcast,
where the claim requires neither for intermediate transitions. -/
theorem c1_counterexample :
    (getConn c1State.connected "u1").length = 1 ∧
    (getConn (handleConnection c1State "s2" (some "u1") 0).st.connected "u1").length = 2 ∧
    setOnlineCalls "u1" true (handleConnection c1State "s2" (some "u1") 0).acts = 1 ∧
    usersUpdatedBroadcasts (handleConnection c1State "s2" (some "u1") 0).acts = 1 := by
  decide

theorem setOnlineCalls_replay (uid : String) (b : Bool) (client : String)
    (dels : List DeletionEvent) :
    setOnlineCalls uid b (dels.map (fun d => Act.emit client "message:deleted"
      (.deletedReplay d.messageId d.deletedBy d.conversationId))) = 0 := by
  unfold setOnlineCalls
  rw [filter_map_of_false _ _ _ (fun x => rfl)]
  rfl

theorem usersUpdatedBroadcasts_replay (client : String) (dels : List DeletionEvent) :
    usersUpdatedBroadcasts (dels.map (fun d => Act.emit client "message:deleted"
      (.deletedReplay d.messageId d.deletedBy d.conversationId))) = 0 := by
  unfold usersUpdatedBroadcasts
  rw [filter_map_of_false _ _ _ (fun x => rfl)]
  rfl

/-- C1 as amended: every successful registration (a 0 to 1 transition or
an additional device alike) performs exactly one `setOnline(true)` call
and one presence broadcast; a disconnect that empties the user's entry
(1 to 0) performs exactly one `setOnline(false)` call and one broadcast;
a disconnect that leaves other connections (2 to 1) performs neither. -/
theorem c1_transitions :
    (∀ (st : GWState) (client uid : String) (u : User) (now : Nat),
      findUserById st.users uid = some u →
      (getConn st.connected uid).length < maxConnectionsPerUser →
      setOnlineCalls uid true (handleConnection st client (some uid) now).acts = 1 ∧
      usersUpdatedBroadcasts (handleConnection st client (some uid) now).acts = 1) ∧
    (∀ (st : GWState) (client uid : String) (socks : List Conn),
      st.connected.find? (fun e => e.2.any (fun c => decide (c.socketId = client)))
        = some (uid, socks) →
      socks.length = 1 →
      setOnlineCalls uid false (handleDisconnect st client).acts = 1 ∧
      usersUpdatedBroadcasts (handleDisconnect st client).acts = 1) ∧
    (∀ (st : GWState) (client uid : String) (socks : List Conn),
      st.connected.find? (fun e => e.2.any (fun c => decide (c.socketId = client)))
        = some (uid, socks) →
      2 ≤ socks.length →
      (handleDisconnect st client).acts = []) := by
  refine ⟨?_, ?_, ?_⟩
  · intro st client uid u now hu hcap
    unfold handleConnection
    simp only [hu]
    rw [if_neg (Nat.not_le.mpr hcap)]
    simp only []
    cases hpe : (getPendingFor st.msgs uid 20).isEmpty <;>
      simp [hpe, setOnlineCalls_append, usersUpdatedBroadcasts_append,
        setOnlineCalls_replay, usersUpdatedBroadcasts_replay,
        setOnlineCalls, usersUpdatedBroadcasts, List.filter]
  · intro st client uid socks hfind hlen
    unfold handleDisconnect
    rw [hfind]
    simp only []
    match socks, hlen with
    | [x], _ =>
      have hp := List.find?_some hfind
      simp only [List.any_cons, List.any_nil, Bool.or_false, decide_eq_true_eq] at hp
      simp [List.findIdx_cons, hp, List.eraseIdx, setOnlineCalls,
        usersUpdatedBroadcasts, List.filter]
  · intro st client uid socks hfind hlen
    unfold handleDisconnect
    rw [hfind]
    simp only []
    have h1 : 1 ≤ (socks.eraseIdx (socks.findIdx
        (fun c => decide (c.socketId = client)))).length := by
      have := length_eraseIdx_ge socks (socks.findIdx (fun c => decide (c.socketId = client)))
      omega
    have h2 : (socks.eraseIdx (socks.findIdx
        (fun c => decide (c.socketId = client)))).isEmpty = false := by
      cases he : socks.eraseIdx (socks.findIdx (fun c => decide (c.socketId = client))) with
      | nil => rw [he] at h1; simp at h1
      | cons a t => rfl
    rw [h2]
    rfl

def c1wA : GWState := ⟨[], [⟨"u1", "alice", none, false⟩], [], ⟨[], 0⟩⟩

def c1wB : GWState :=
  ⟨[("u1", [⟨"s1", "u1", "alice", none⟩])], [⟨"u1", "alice", none, true⟩], [], ⟨[], 0⟩⟩

def c1wC : GWState :=
  ⟨[("u1", [⟨"s1", "u1", "alice", none⟩, ⟨"s2", "u1", "alice", none⟩])],
   [⟨"u1", "alice", none, true⟩], [], ⟨[], 0⟩⟩

/-- C1 witness: the amended transition counts at concrete 0 to 1, 1 to 0
and 2 to 1 transitions. -/
theorem c1_transitions_witness :
    (setOnlineCalls "u1" true (handleConnection c1wA "s1" (some "u1") 0).acts = 1 ∧
     usersUpdatedBroadcasts (handleConnection c1wA "s1" (some "u1") 0).acts = 1) ∧
    (setOnlineCalls "u1" false (handleDisconnect c1wB "s1").acts = 1 ∧
     usersUpdatedBroadcasts (handleDisconnect c1wB "s1").acts = 1) ∧
    (handleDisconnect c1wC "s2").acts = [] :=
  ⟨c1_transitions.1 c1wA "s1" "u1" ⟨"u1", "alice", none, false⟩ 0 (by decide) (by decide),
   c1_transitions.2.1 c1wB "s1" "u1" [⟨"s1", "u1", "alice", none⟩] (by decide) (by decide),
   c1_transitions.2.2 c1wC "s2" "u1"
     [⟨"s1", "u1", "alice", none⟩, ⟨"s2", "u1", "alice", none⟩] (by decide) (by decide)⟩

/-! ### C6 -/

theorem deletionConvIds_append (l1 l2 : List Act) :
    deletionConvIds (l1 ++ l2) = deletionConvIds l1 ++ deletionConvIds l2 := by
  simp [deletionConvIds, List.filterMap_append]

theorem deletionConvIds_fanout (l : List Conn) (i : Nat) (u v : String) :
    deletionConvIds (l.map (fun cn =>
      Act.emit cn.socketId "message:deleted" (.deleted i u v))) = l.map (fun _ => v) := by
  induction l with
  | nil => rfl
  | cons a t ih => simp [deletionConvIds, List.filterMap_cons] at ih ⊢; exact ih

def c6State : GWState :=
  ⟨[("a", [⟨"sa", "a", "alice", none⟩]), ("b", [⟨"sb", "b", "bob", none⟩])],
   [⟨"a", "alice", none, true⟩, ⟨"b", "bob", none, true⟩], [],
   ⟨[{ baseMsg 1 "a" "b" MsgType.text 1 with text := some "x" },
     { baseMsg 2 "b" "a" MsgType.text 2 with text := some "y" }], 3⟩⟩

/-- C6, counterexample: messages 1 (`a` to `b`) and 2 (`b` to `a`) are
both between the same pair of users, yet every deletion event for the
first carries conversation id `"a-b"` while every deletion event for the
second carries `"b-a"`, so the key is not the same for the pair. -/
theorem c6_counterexample :
    deletionConvIds (handleDeleteMessage c6State "sb" 1 9).acts = ["a-b", "a-b", "a-b"] ∧
    deletionConvIds (handleDeleteMessage c6State "sa" 2 9).acts = ["b-a", "b-a", "b-a"] ∧
    ("a-b" : String) ≠ "b-a" := by
  decide

/-- C6 as amended: the conversation id of every deletion event — both the
live `message:deleted` broadcasts of `handleDeleteMessage` and the
offline replays built by `getRecentDeletionsForUser` — is the
deterministic key `from + "-" + to` of the deleted message, independent
of which participant requested the deletion; it is sender-first, not
smaller-first, so the two directions of the same pair yield different
keys. -/
theorem mem_constMap {α : Type} {v x : String} {l : List α}
    (h : x ∈ l.map (fun _ => v)) : x = v := by
  rcases List.mem_map.mp h with ⟨_, _, rfl⟩
  rfl

theorem c6_conversation_id :
    (∀ (st : GWState) (client : String) (mid : Nat) (now : Nat) (fu : Conn) (msg : Msg),
      findConnBySocket st.connected client = some fu →
      findMsg st.msgs mid = some msg →
      ∀ c ∈ deletionConvIds (handleDeleteMessage st client mid now).acts,
        c = msg.from_ ++ "-" ++ msg.to_) ∧
    (∀ (s : MsgStore) (uid : String) (cutoff : Nat),
      ∀ d ∈ getRecentDeletionsForUser s uid cutoff,
        ∃ m ∈ s.msgs, d.messageId = m.id ∧ d.conversationId = m.from_ ++ "-" ++ m.to_) := by
  constructor
  · intro st client mid now fu msg hfu hmsg c hc
    unfold handleDeleteMessage at hc
    simp only [hfu, hmsg] at hc
    by_cases hauth : msg.from_ ≠ fu.userId ∧ msg.to_ ≠ fu.userId
    · rw [if_pos hauth] at hc
      simp [deletionConvIds, List.filterMap] at hc
    · rw [if_neg hauth] at hc
      cases hdel : markDeletedStore st.msgs mid fu.userId now with
      | error e =>
        rw [hdel] at hc
        simp [deletionConvIds, List.filterMap] at hc
      | ok msgs' =>
        rw [hdel] at hc
        simp only [List.foldr_cons, List.foldr_nil, List.append_nil] at hc
        rw [deletionConvIds_append, deletionConvIds_append,
          deletionConvIds_fanout, deletionConvIds_fanout] at hc
        rcases List.mem_append.mp hc with h | h
        · rcases List.mem_append.mp h with h2 | h2 <;> exact mem_constMap h2
        · have hsing : deletionConvIds [Act.emit client "message:deleted"
              (Payload.deleted mid fu.userId (msg.from_ ++ "-" ++ msg.to_))]
              = [msg.from_ ++ "-" ++ msg.to_] := rfl
          rw [hsing] at h
          simpa using h
  · intro s uid cutoff d hd
    unfold getRecentDeletionsForUser at hd
    rcases List.mem_map.mp hd with ⟨m, hm, rfl⟩
    exact ⟨m, (List.mem_filter.mp hm).1, rfl, rfl⟩

def c6wStore : MsgStore :=
  ⟨[{ baseMsg 1 "a" "b" MsgType.text 1 with text := some "x", deletedBy := ["b"], updatedAt := 9 }], 2⟩

/-- C6 witness: the amended key at a concrete deletion and a concrete
replay query. -/
theorem c6_conversation_id_witness :
    (∀ c ∈ deletionConvIds (handleDeleteMessage c6State "sb" 1 9).acts, c = "a-b") ∧
    (∀ d ∈ getRecentDeletionsForUser c6wStore "b" 0,
      ∃ m ∈ c6wStore.msgs, d.messageId = m.id ∧ d.conversationId = m.from_ ++ "-" ++ m.to_) :=
  ⟨c6_conversation_id.1 c6State "sb" 1 9 ⟨"sb", "b", "bob", none⟩
     { baseMsg 1 "a" "b" MsgType.text 1 with text := some "x" } (by decide) (by decide),
   c6_conversation_id.2 c6wStore "b" 0⟩

/-! ### C7 -/

def c7State : GWState :=
  ⟨[("u1", [⟨"s1", "u1", "alice", none⟩])],
   [⟨"u1", "alice", none, true⟩, ⟨"u2", "bob", none, false⟩], [], ⟨[], 0⟩⟩

/-- C7, counterexample: a `location` event with latitude 91 (outside
[-90,90]) from a registered socket persists nothing and leaves the
connection open, but the gateway emits no `error` event at all — the
`BadRequestException` escapes `handleLocation`, which has no try/catch —
whereas the claim requires an error event to the originating connection. -/
theorem c7_counterexample :
    (handleLocation c7State "s1" ⟨"u2", 91, 0, none⟩ 5).escaped = true ∧
    (handleLocation c7State "s1" ⟨"u2", 91, 0, none⟩ 5).acts = [] ∧
    errorEmits (handleLocation c7State "s1" ⟨"u2", 91, 0, none⟩ 5).acts = [] ∧
    (handleLocation c7State "s1" ⟨"u2", 91, 0, none⟩ 5).st = c7State := by
  decide

/-- C7 as amended: a validation failure never persists a message; for
`message` events the handler catches the throw and emits exactly one
`error` event to the originating connection with the connection left
open, while for the dedicated `location` and `webview` events the
exception escapes the handler with no emission at all (and no
disconnect); the validation conditions are exactly the claimed ones
(empty trimmed text for text-like types, falsy url/name or non-positive
size for files, coordinates outside the valid ranges, empty url for
webview). -/
theorem c7_validation :
    (∀ (st : GWState) (client : String) (p : MessageEvent) (now : Nat) (fu : Conn) (e : String),
      findConnBySocket st.connected client = some fu →
      validTypes.contains (p.type.getD "text") = true →
      saveForType st.msgs fu.userId p now = .error e →
      handleMessage st client p now =
        ⟨st, [.emit client "error" (.errorMsg "Failed to send message")], false⟩) ∧
    (∀ (st : GWState) (client : String) (p : LocationEvent) (now : Nat) (fu : Conn),
      findConnBySocket st.connected client = some fu →
      (p.latitude < -90 ∨ p.latitude > 90 ∨ p.longitude < -180 ∨ p.longitude > 180) →
      handleLocation st client p now = ⟨st, [], true⟩) ∧
    (∀ (st : GWState) (client : String) (p : WebViewEvent) (now : Nat) (fu : Conn),
      findConnBySocket st.connected client = some fu →
      trimStr p.url = "" →
      handleWebView st client p now = ⟨st, [], true⟩) ∧
    (∀ (s : MsgStore) (f t : String) (lat lon : Rat) (il : Bool) (now : Nat),
      saveOk (saveLocation s f t lat lon il now) = false ↔
        (lat < -90 ∨ lat > 90 ∨ lon < -180 ∨ lon > 180)) ∧
    (∀ (s : MsgStore) (f t e : String) (now : Nat),
      saveOk (saveEmoji s f t e now) = false ↔ trimStr e = "") ∧
    (∀ (s : MsgStore) (f t u fn : String) (fs : Int) (ft : String) (now : Nat),
      saveOk (saveFile s f t u fn fs ft now) = false ↔ (u = "" ∨ fn = "" ∨ fs ≤ 0)) ∧
    (∀ (s : MsgStore) (f t u : String) (ti de im : Option String) (now : Nat),
      saveOk (saveWebView s f t u ti de im now) = false ↔ trimStr u = "") := by
  refine ⟨?_, ?_, ?_, ?_, ?_, ?_, ?_⟩
  · intro st client p now fu e hfu hvt hsave
    unfold handleMessage
    simp only [hfu, hvt, Bool.not_true, Bool.false_eq_true, if_false, hsave]
  · intro st client p now fu hfu hbad
    unfold handleLocation
    simp only [hfu]
    have : saveLocation st.msgs fu.userId p.to_ p.latitude p.longitude
        (p.isLive.getD false) now = .error "Invalid coordinates provided" := by
      unfold saveLocation
      rw [if_pos hbad]
    rw [this]
  · intro st client p now fu hfu hurl
    unfold handleWebView
    simp only [hfu]
    have h2 : saveWebView st.msgs fu.userId p.to_ p.url p.title p.description p.imageUrl now
        = .error "Web URL cannot be empty" := by
      unfold saveWebView
      rw [if_pos hurl]
    rw [h2]
  · intro s f t lat lon il now
    unfold saveLocation
    by_cases h : lat < -90 ∨ lat > 90 ∨ lon < -180 ∨ lon > 180 <;>
      simp [h, saveOk]
  · intro s f t e now
    unfold saveEmoji
    by_cases h : trimStr e = "" <;> simp [h, saveOk]
  · intro s f t u fn fs ft now
    unfold saveFile
    by_cases h : u = "" ∨ fn = "" ∨ fs ≤ 0 <;> simp [h, saveOk]
  · intro s f t u ti de im now
    unfold saveWebView
    by_cases h : trimStr u = "" <;> simp [h, saveOk]

/-- C7 witness: the amended behavior at concrete invalid payloads —
an empty emoji through the `message` handler, latitude 91 through the
`location` handler and an empty url through the `webview` handler. -/
theorem c7_validation_witness :
    handleMessage c7State "s1" ⟨"u2", "  ", some "emoji", none, none, none, none⟩ 5 =
      ⟨c7State, [.emit "s1" "error" (.errorMsg "Failed to send message")], false⟩ ∧
    handleLocation c7State "s1" ⟨"u2", 91, 0, none⟩ 5 = ⟨c7State, [], true⟩ ∧
    handleWebView c7State "s1" ⟨"u2", " ", none, none, none⟩ 5 = ⟨c7State, [], true⟩ ∧
    (saveOk (saveLocation ⟨[], 0⟩ "u1" "u2" 91 0 false 5) = false ↔
      ((91 : Rat) < -90 ∨ (91 : Rat) > 90 ∨ (0 : Rat) < -180 ∨ (0 : Rat) > 180)) :=
  ⟨c7_validation.1 c7State "s1" ⟨"u2", "  ", some "emoji", none, none, none, none⟩ 5
     ⟨"s1", "u1", "alice", none⟩ "Emoji cannot be empty" (by decide) (by decide) (by rfl),
   c7_validation.2.1 c7State "s1" ⟨"u2", 91, 0, none⟩ 5 ⟨"s1", "u1", "alice", none⟩
     (by decide) (by norm_num),
   c7_validation.2.2.1 c7State "s1" ⟨"u2", " ", none, none, none⟩ 5
     ⟨"s1", "u1", "alice", none⟩ (by decide) (by decide),
   c7_validation.2.2.2.1 ⟨[], 0⟩ "u1" "u2" 91 0 false 5⟩

/-! ### C10 -/

def c10State : GWState :=
  ⟨[("u1", [⟨"s1", "u1", "alice", none⟩, ⟨"s2", "u1", "alice", none⟩]),
    ("u2", [⟨"s3", "u2", "bob", none⟩])],
   [⟨"u1", "alice", none, true⟩, ⟨"u2", "bob", none, true⟩], [], ⟨[], 0⟩⟩

/-- C10: a `userOffline` (`userOnline`) event whose payload matches the
emitting socket's registered user persists `online=false` (`true`) and
broadcasts `userStatusUpdate` to everyone but the sender, leaving the
connection registry and message store untouched; a mismatched or
unregistered socket changes nothing; concretely, after `userOffline` the
persisted flag reads false while the user still holds live connections. -/
theorem c10_user_status :
    (∀ (st : GWState) (client uid : String) (fu : Conn),
      findConnBySocket st.connected client = some fu →
      fu.userId = uid →
      handleUserOffline st client uid =
        ⟨{ st with users := setUserOnline st.users uid false },
         [.setOnline uid false,
          .broadcastExcept client "userStatusUpdate" (.status uid false)], false⟩ ∧
      handleUserOnline st client uid =
        ⟨{ st with users := setUserOnline st.users uid true },
         [.setOnline uid true,
          .broadcastExcept client "userStatusUpdate" (.status uid true)], false⟩) ∧
    (∀ (st : GWState) (client uid : String) (fu : Conn),
      findConnBySocket st.connected client = some fu →
      fu.userId ≠ uid →
      handleUserOffline st client uid = ⟨st, [], false⟩ ∧
      handleUserOnline st client uid = ⟨st, [], false⟩) ∧
    (∀ (st : GWState) (client uid : String),
      findConnBySocket st.connected client = none →
      handleUserOffline st client uid = ⟨st, [], false⟩ ∧
      handleUserOnline st client uid = ⟨st, [], false⟩) ∧
    ((findUserById (handleUserOffline c10State "s1" "u1").st.users "u1"
        = some ⟨"u1", "alice", none, false⟩) ∧
     getConn (handleUserOffline c10State "s1" "u1").st.connected "u1" ≠ []) := by
  refine ⟨?_, ?_, ?_, by decide⟩
  · intro st client uid fu hfu heq
    constructor
    · unfold handleUserOffline
      simp only [hfu]
      rw [if_pos heq]
    · unfold handleUserOnline
      simp only [hfu]
      rw [if_pos heq]
  · intro st client uid fu hfu hne
    constructor
    · unfold handleUserOffline
      simp only [hfu]
      rw [if_neg hne]
    · unfold handleUserOnline
      simp only [hfu]
      rw [if_neg hne]
  · intro st client uid hfu
    constructor
    · unfold handleUserOffline
      simp only [hfu]
    · unfold handleUserOnline
      simp only [hfu]

/-- C10 witness: the three cases at concrete states. -/
theorem c10_user_status_witness :
    (handleUserOffline c10State "s1" "u1" =
      ⟨{ c10State with users := setUserOnline c10State.users "u1" false },
       [.setOnline "u1" false,
        .broadcastExcept "s1" "userStatusUpdate" (.status "u1" false)], false⟩) ∧
    (handleUserOffline c10State "s1" "u2" = ⟨c10State, [], false⟩) ∧
    (handleUserOffline c10State "s9" "u1" = ⟨c10State, [], false⟩) :=
  ⟨(c10_user_status.1 c10State "s1" "u1" ⟨"s1", "u1", "alice", none⟩
      (by decide) (by decide)).1,
   (c10_user_status.2.1 c10State "s1" "u2" ⟨"s1", "u1", "alice", none⟩
      (by decide) (by decide)).1,
   (c10_user_status.2.2.1 c10State "s9" "u1" (by decide)).1⟩

/-! ### C8 -/

def c8State : GWState :=
  ⟨[("u1", [⟨"s1", "u1", "alice", none⟩]),
    ("u2", [⟨"s2", "u2", "bob", none⟩, ⟨"s3", "u2", "bob", none⟩])],
   [⟨"u1", "alice", none, true⟩, ⟨"u2", "bob", none, true⟩], [], ⟨[], 0⟩⟩

/-- C8: whenever a `message`, `location` or `webview` event is persisted,
the very first action of the handler's trace is the echo of the composed
payload to the originating connection — so the echo always happens,
independent of recipient presence, and strictly before any emission to
any other connection. -/
theorem c8_echo_first :
    (∀ (st : GWState) (client : String) (p : MessageEvent) (now : Nat)
       (fu : Conn) (saved : Msg) (s1 : MsgStore),
      findConnBySocket st.connected client = some fu →
      validTypes.contains (p.type.getD "text") = true →
      saveForType st.msgs fu.userId p now = .ok (saved, s1) →
      (handleMessage st client p now).acts.head? =
        some (.emit client "message"
          (.msgData (mkMessageData saved fu p (p.type.getD "text"))))) ∧
    (∀ (st : GWState) (client : String) (p : LocationEvent) (now : Nat)
       (fu : Conn) (saved : Msg) (s1 : MsgStore),
      findConnBySocket st.connected client = some fu →
      saveLocation st.msgs fu.userId p.to_ p.latitude p.longitude
        (p.isLive.getD false) now = .ok (saved, s1) →
      (handleLocation st client p now).acts.head? =
        some (.emit client "message" (.msgData (mkLocationData saved fu p)))) ∧
    (∀ (st : GWState) (client : String) (p : WebViewEvent) (now : Nat)
       (fu : Conn) (saved : Msg) (s1 : MsgStore),
      findConnBySocket st.connected client = some fu →
      saveWebView st.msgs fu.userId p.to_ p.url p.title p.description p.imageUrl now
        = .ok (saved, s1) →
      (handleWebView st client p now).acts.head? =
        some (.emit client "message" (.msgData (mkWebViewData saved fu p)))) := by
  refine ⟨?_, ?_, ?_⟩
  · intro st client p now fu saved s1 hfu hvt hsave
    unfold handleMessage
    simp only [hfu, hvt, Bool.not_true, Bool.false_eq_true, if_false, hsave]
    rw [List.cons_append]
    rfl
  · intro st client p now fu saved s1 hfu hsave
    unfold handleLocation
    simp only [hfu, hsave]
    cases h : (getConn st.connected p.to_).isEmpty <;> simp [h]
  · intro st client p now fu saved s1 hfu hsave
    unfold handleWebView
    simp only [hfu, hsave]
    cases h : (getConn st.connected p.to_).isEmpty <;> simp [h]

/-- C8 witness: the echo-first property at a concrete text message, a
concrete location and a concrete webview event. -/
theorem c8_echo_first_witness :
    ((handleMessage c8State "s1" ⟨"u2", "hi", none, none, none, none, none⟩ 7).acts.head? =
      some (.emit "s1" "message" (.msgData (mkMessageData
        { baseMsg 0 "u1" "u2" MsgType.text 7 with text := some "hi" }
        ⟨"s1", "u1", "alice", none⟩ ⟨"u2", "hi", none, none, none, none, none⟩ "text")))) ∧
    ((handleLocation c8State "s1" ⟨"u2", 10, 20, none⟩ 7).acts.head? =
      some (.emit "s1" "message" (.msgData (mkLocationData
        { baseMsg 0 "u1" "u2" MsgType.location 7 with latitude := some 10, longitude := some 20 }
        ⟨"s1", "u1", "alice", none⟩ ⟨"u2", 10, 20, none⟩)))) ∧
    ((handleWebView c8State "s1" ⟨"u2", "http://x", none, none, none⟩ 7).acts.head? =
      some (.emit "s1" "message" (.msgData (mkWebViewData
        { baseMsg 0 "u1" "u2" MsgType.webview 7 with webUrl := some "http://x" }
        ⟨"s1", "u1", "alice", none⟩ ⟨"u2", "http://x", none, none, none⟩)))) :=
  ⟨c8_echo_first.1 c8State "s1" ⟨"u2", "hi", none, none, none, none, none⟩ 7
     ⟨"s1", "u1", "alice", none⟩
     { baseMsg 0 "u1" "u2" MsgType.text 7 with text := some "hi" }
     ⟨[{ baseMsg 0 "u1" "u2" MsgType.text 7 with text := some "hi" }], 1⟩
     (by decide) (by decide) (by rfl),
   c8_echo_first.2.1 c8State "s1" ⟨"u2", 10, 20, none⟩ 7
     ⟨"s1", "u1", "alice", none⟩
     { baseMsg 0 "u1" "u2" MsgType.location 7 with latitude := some 10, longitude := some 20 }
     ⟨[{ baseMsg 0 "u1" "u2" MsgType.location 7 with latitude := some 10, longitude := some 20 }], 1⟩
     (by decide) (by rfl),
   c8_echo_first.2.2 c8State "s1" ⟨"u2", "http://x", none, none, none⟩ 7
     ⟨"s1", "u1", "alice", none⟩
     { baseMsg 0 "u1" "u2" MsgType.webview 7 with webUrl := some "http://x" }
     ⟨[{ baseMsg 0 "u1" "u2" MsgType.webview 7 with webUrl := some "http://x" }], 1⟩
     (by decide) (by rfl)⟩

/-! ### C9 -/

def c9Msg (i : Nat) : Msg := { baseMsg i "u3" "u2" MsgType.text i with text := some "m" }

def c9State : GWState :=
  ⟨[], [⟨"u2", "bob", none, false⟩], [],
   ⟨(List.range 21).map (fun i => c9Msg (i + 1)), 22⟩⟩

/-- C9: `getPendingFor` returns at most 20 messages; concretely, with 21
undelivered messages (ids and timestamps 1..21) for `u2`, the reconnect
flush emits exactly one `messages:pending` batch holding the 20 most
recent (ids 2..21, chronological) followed by one `markDelivered` for
those 20 ids, the oldest message (id 1) is not emitted and stays
`delivered=false`, and each of the 20 flushed ids ends delivered. -/
theorem c9_pending_limit :
    (∀ (s : MsgStore) (uid : String), (getPendingFor s uid 20).length ≤ 20) ∧
    ((getPendingFor c9State.msgs "u2" 20).map (fun m => m.id) =
      [2, 3, 4, 5, 6, 7, 8, 9, 10, 11, 12, 13, 14, 15, 16, 17, 18, 19, 20, 21]) ∧
    (syncActs (handleConnection c9State "s9" (some "u2") 100).acts =
      [.emit "s9" "messages:pending" (.pendingBatch (getPendingFor c9State.msgs "u2" 20)),
       .markDelivered [2, 3, 4, 5, 6, 7, 8, 9, 10, 11, 12, 13, 14, 15, 16, 17, 18, 19, 20, 21]]) ∧
    (∀ m ∈ getPendingFor c9State.msgs "u2" 20, m.id ≠ 1) ∧
    undeliveredInStore (handleConnection c9State "s9" (some "u2") 100).st.msgs 1 ∧
    (∀ i ∈ [2, 3, 4, 5, 6, 7, 8, 9, 10, 11, 12, 13, 14, 15, 16, 17, 18, 19, 20, 21],
      deliveredInStore (handleConnection c9State "s9" (some "u2") 100).st.msgs i) := by
  refine ⟨?_, by decide, by decide, by decide, by decide, by decide⟩
  intro s uid
  unfold getPendingFor
  rw [List.length_reverse, List.length_take]
  exact Nat.min_le_left _ _

/-! ### C3 -/

theorem mem_insertByDesc {y m : Msg} {l : List Msg} (h : y ∈ insertByDesc m l) :
    y = m ∨ y ∈ l := by
  induction l with
  | nil => simpa [insertByDesc] using h
  | cons x xs ih =>
    rw [insertByDesc] at h
    by_cases hc : x.createdAt ≤ m.createdAt
    · rw [if_pos hc] at h
      rcases List.mem_cons.mp h with rfl | h2
      · exact Or.inl rfl
      · exact Or.inr h2
    · rw [if_neg hc] at h
      rcases List.mem_cons.mp h with rfl | h2
      · exact Or.inr (List.mem_cons_self _ _)
      · rcases ih h2 with h3 | h3
        · exact Or.inl h3
        · exact Or.inr (List.mem_cons_of_mem _ h3)

theorem mem_sortByDesc {y : Msg} {l : List Msg} (h : y ∈ sortByDesc l) : y ∈ l := by
  induction l with
  | nil => simpa [sortByDesc] using h
  | cons x xs ih =>
    rw [sortByDesc] at h
    rcases mem_insertByDesc h with rfl | h2
    · exact List.mem_cons_self _ _
    · exact List.mem_cons_of_mem _ (ih h2)

theorem sorted_insertByDesc (m : Msg) (l : List Msg)
    (h : l.Sorted (fun a b => b.createdAt ≤ a.createdAt)) :
    (insertByDesc m l).Sorted (fun a b => b.createdAt ≤ a.createdAt) := by
  induction l with
  | nil => simp [insertByDesc]
  | cons x xs ih =>
    rw [insertByDesc]
    by_cases hc : x.createdAt ≤ m.createdAt
    · rw [if_pos hc]
      rw [List.sorted_cons]
      refine ⟨?_, h⟩
      intro b hb
      rcases List.mem_cons.mp hb with rfl | hb2
      · exact hc
      · exact le_trans ((List.sorted_cons.mp h).1 b hb2) hc
    · rw [if_neg hc]
      rw [List.sorted_cons]
      refine ⟨?_, ih (List.sorted_cons.mp h).2⟩
      intro b hb
      rcases mem_insertByDesc hb with rfl | hb2
      · omega
      · exact (List.sorted_cons.mp h).1 b hb2

theorem sorted_sortByDesc (l : List Msg) :
    (sortByDesc l).Sorted (fun a b => b.createdAt ≤ a.createdAt) := by
  induction l with
  | nil => simp [sortByDesc]
  | cons x xs ih => exact sorted_insertByDesc x (sortByDesc xs) ih

theorem chron_getPendingFor (s : MsgStore) (uid : String) (n : Nat) :
    (getPendingFor s uid n).Sorted (fun a b => a.createdAt ≤ b.createdAt) := by
  unfold getPendingFor
  rw [List.Sorted, List.pairwise_reverse]
  exact (sorted_sortByDesc _).sublist (List.take_sublist _ _)

theorem mem_getPendingFor {s : MsgStore} {uid : String} {n : Nat} {m : Msg}
    (h : m ∈ getPendingFor s uid n) :
    m ∈ s.msgs ∧ m.delivered = false ∧ m.to_ = uid ∧ uid ∉ m.deletedBy := by
  unfold getPendingFor at h
  have h1 := mem_sortByDesc (List.mem_of_mem_take (List.mem_reverse.mp h))
  have h2 := List.mem_filter.mp h1
  refine ⟨h2.1, ?_⟩
  have h3 := h2.2
  simp only [Bool.and_eq_true, decide_eq_true_eq, Bool.not_eq_true',
    decide_eq_false_iff_not] at h3
  exact ⟨by simpa using h3.1.2, h3.1.1, h3.2⟩

theorem deliveredInStore_markDeliveredStore (s : MsgStore) (ids : List Nat)
    (now : Nat) (k : Nat) (hk : k ∈ ids) :
    deliveredInStore (markDeliveredStore s ids now) k := by
  intro m hm hid
  unfold markDeliveredStore at hm
  rcases List.mem_map.mp hm with ⟨y, hy, rfl⟩
  by_cases hin : y.id ∈ ids
  · simp [hin]
  · simp only [hin, if_false] at hid ⊢
    exact absurd (hid ▸ hk) hin

theorem syncActs_append (l1 l2 : List Act) :
    syncActs (l1 ++ l2) = syncActs l1 ++ syncActs l2 := by
  simp [syncActs, List.filter_append]

theorem syncActs_replay (client : String) (dels : List DeletionEvent) :
    syncActs (dels.map (fun d => Act.emit client "message:deleted"
      (.deletedReplay d.messageId d.deletedBy d.conversationId))) = [] := by
  unfold syncActs
  rw [filter_map_of_false _ _ _ (fun x => rfl)]

/-- C3: on every successful registration with a non-empty pending set,
the handler's reconnect-sync actions are exactly one `messages:pending`
batch to the new connection followed by one `markDelivered` call with
all the batch's ids; the batch is chronologically ordered; every batched
message was an undelivered message to this user not deleted by them, and
every batched id is delivered in the resulting store. -/
theorem c3_reconnect_flush :
    ∀ (st : GWState) (client uid : String) (u : User) (now : Nat),
      findUserById st.users uid = some u →
      (getConn st.connected uid).length < maxConnectionsPerUser →
      getPendingFor st.msgs uid 20 ≠ [] →
      (syncActs (handleConnection st client (some uid) now).acts =
        [.emit client "messages:pending" (.pendingBatch (getPendingFor st.msgs uid 20)),
         .markDelivered ((getPendingFor st.msgs uid 20).map (fun m => m.id))]) ∧
      (getPendingFor st.msgs uid 20).Sorted (fun a b => a.createdAt ≤ b.createdAt) ∧
      (∀ m ∈ getPendingFor st.msgs uid 20,
        m.delivered = false ∧ m.to_ = uid ∧ uid ∉ m.deletedBy) ∧
      (∀ m ∈ getPendingFor st.msgs uid 20,
        deliveredInStore (handleConnection st client (some uid) now).st.msgs m.id) := by
  intro st client uid u now hu hcap hp
  have hpe : (getPendingFor st.msgs uid 20).isEmpty = false := by
    cases hq : getPendingFor st.msgs uid 20 with
    | nil => exact absurd hq hp
    | cons a t => rfl
  refine ⟨?_, chron_getPendingFor _ _ _, ?_, ?_⟩
  · unfold handleConnection
    simp only [hu]
    rw [if_neg (Nat.not_le.mpr hcap)]
    simp only [hpe, Bool.false_eq_true, if_false]
    rw [syncActs_append, syncActs_append, syncActs_replay, List.append_nil]
    rfl
  · intro m hm
    exact (mem_getPendingFor hm).2
  · intro m hm
    unfold handleConnection
    simp only [hu]
    rw [if_neg (Nat.not_le.mpr hcap)]
    simp only [hpe, Bool.false_eq_true, if_false]
    exact deliveredInStore_markDeliveredStore _ _ _ _ (List.mem_map_of_mem _ hm)

def c3Msg (i : Nat) : Msg := { baseMsg i "u1" "u2" MsgType.text i with text := some "m" }

def c3State : GWState :=
  ⟨[], [⟨"u1", "alice", none, true⟩, ⟨"u2", "bob", none, false⟩], [],
   ⟨[c3Msg 1, c3Msg 2, c3Msg 3], 4⟩⟩

/-- C3 witness: three messages M1, M2, M3 sent in order to offline `u2`
are flushed on reconnect as one chronological batch and one
`markDelivered` of all three ids. -/
theorem c3_reconnect_flush_witness :
    ((getPendingFor c3State.msgs "u2" 20).map (fun m => m.id) = [1, 2, 3]) ∧
    (syncActs (handleConnection c3State "s2" (some "u2") 50).acts =
      [.emit "s2" "messages:pending" (.pendingBatch (getPendingFor c3State.msgs "u2" 20)),
       .markDelivered ((getPendingFor c3State.msgs "u2" 20).map (fun m => m.id))]) ∧
    (getPendingFor c3State.msgs "u2" 20).Sorted (fun a b => a.createdAt ≤ b.createdAt) ∧
    (∀ m ∈ getPendingFor c3State.msgs "u2" 20,
      m.delivered = false ∧ m.to_ = "u2" ∧ "u2" ∉ m.deletedBy) ∧
    (∀ m ∈ getPendingFor c3State.msgs "u2" 20,
      deliveredInStore (handleConnection c3State "s2" (some "u2") 50).st.msgs m.id) :=
  ⟨by decide,
   c3_reconnect_flush c3State "s2" "u2" ⟨"u2", "bob", none, false⟩ 50
     (by decide) (by decide) (by decide)⟩

/-! ### C4 -/

theorem mem_addToSet_self (uid : String) (l : List String) : uid ∈ addToSet uid l := by
  unfold addToSet
  by_cases h : uid ∈ l <;> simp [h]

theorem softDeleteMsg_spec (l : List Msg) (mid : Nat) (uid : String) (now : Nat)
    (hnd : (l.map (fun m => m.id)).Nodup) :
    ∀ x ∈ softDeleteMsg l mid uid now, x.id = mid → uid ∈ x.deletedBy := by
  induction l with
  | nil => intro x hx; simp [softDeleteMsg] at hx
  | cons m ms ih =>
    intro x hx hid
    rw [softDeleteMsg] at hx
    rw [List.map_cons, List.nodup_cons] at hnd
    rcases hnd with ⟨hm, hms⟩
    by_cases hc : m.id = mid
    · rw [if_pos hc] at hx
      rcases List.mem_cons.mp hx with rfl | h2
      · exact mem_addToSet_self _ _
      · refine absurd ?_ hm
        rw [hc, ← hid]
        simpa using List.mem_map_of_mem (fun m => m.id) h2
    · rw [if_neg hc] at hx
      rcases List.mem_cons.mp hx with rfl | h2
      · exact absurd hid hc
      · exact ih hms x h2 hid

theorem findMsg_removeMsg (l : List Msg) (mid : Nat)
    (hnd : (l.map (fun m => m.id)).Nodup) :
    (removeMsg l mid).find? (fun m => decide (m.id = mid)) = none := by
  induction l with
  | nil => rfl
  | cons m ms ih =>
    rw [List.map_cons, List.nodup_cons] at hnd
    rcases hnd with ⟨hm, hms⟩
    rw [removeMsg]
    by_cases hc : m.id = mid
    · rw [if_pos hc]
      refine List.find?_eq_none.mpr ?_
      intro x hx
      simp only [decide_eq_true_eq]
      intro hxid
      refine hm ?_
      rw [hc, ← hxid]
      simpa using List.mem_map_of_mem (fun m => m.id) hx
    · rw [if_neg hc]
      rw [List.find?_cons_of_neg _ (by simpa using hc)]
      exact ih hms

def c4StateA : GWState :=
  ⟨[("a", [⟨"sa", "a", "alice", none⟩]), ("b", [⟨"sb", "b", "bob", none⟩])],
   [⟨"a", "alice", none, true⟩, ⟨"b", "bob", none, true⟩], [],
   ⟨[{ baseMsg 1 "a" "b" MsgType.text 1 with text := some "x" }], 2⟩⟩

/-- C4: a `delete:message` request by a non-participant fails with a
single error emit and no mutation; a request by the sender removes the
record entirely (so it is findable no more); a request by the recipient
adds them to `deletedBy` via an idempotent set-add; and in the concrete
message M from `a` to `b`: after `a` deletes, both conversation queries
omit M, while after `b` deletes, `getConversation(a,b)` still contains
M but `b`'s query omits it. -/
theorem c4_deletion :
    (∀ (st : GWState) (client : String) (mid : Nat) (now : Nat) (fu : Conn) (msg : Msg),
      findConnBySocket st.connected client = some fu →
      findMsg st.msgs mid = some msg →
      msg.from_ ≠ fu.userId ∧ msg.to_ ≠ fu.userId →
      handleDeleteMessage st client mid now =
        ⟨st, [.emit client "error" (.errorMsg "You can only delete your own messages")],
         false⟩) ∧
    (∀ (st : GWState) (client : String) (mid : Nat) (now : Nat) (fu : Conn) (msg : Msg),
      findConnBySocket st.connected client = some fu →
      findMsg st.msgs mid = some msg →
      msg.from_ = fu.userId →
      (st.msgs.msgs.map (fun m => m.id)).Nodup →
      (handleDeleteMessage st client mid now).st.msgs.msgs = removeMsg st.msgs.msgs mid ∧
      findMsg (handleDeleteMessage st client mid now).st.msgs mid = none) ∧
    (∀ (st : GWState) (client : String) (mid : Nat) (now : Nat) (fu : Conn) (msg : Msg),
      findConnBySocket st.connected client = some fu →
      findMsg st.msgs mid = some msg →
      msg.from_ ≠ fu.userId →
      msg.to_ = fu.userId →
      (st.msgs.msgs.map (fun m => m.id)).Nodup →
      (handleDeleteMessage st client mid now).st.msgs.msgs =
        softDeleteMsg st.msgs.msgs mid fu.userId now ∧
      (∀ x ∈ (handleDeleteMessage st client mid now).st.msgs.msgs,
        x.id = mid → fu.userId ∈ x.deletedBy)) ∧
    (∀ (uid : String) (l : List String), addToSet uid (addToSet uid l) = addToSet uid l) ∧
    ((getConversation (handleDeleteMessage c4StateA "sa" 1 9).st.msgs "a" "b").map
        (fun m => m.id) = [] ∧
     (getConversation (handleDeleteMessage c4StateA "sa" 1 9).st.msgs "b" "a").map
        (fun m => m.id) = []) ∧
    ((getConversation (handleDeleteMessage c4StateA "sb" 1 9).st.msgs "a" "b").map
        (fun m => m.id) = [1] ∧
     (getConversation (handleDeleteMessage c4StateA "sb" 1 9).st.msgs "b" "a").map
        (fun m => m.id) = []) := by
  refine ⟨?_, ?_, ?_, ?_, by decide, by decide⟩
  · intro st client mid now fu msg hfu hmsg hne
    unfold handleDeleteMessage
    simp only [hfu, hmsg]
    rw [if_pos hne]
  · intro st client mid now fu msg hfu hmsg hfrom hnd
    have hdel : markDeletedStore st.msgs mid fu.userId now =
        .ok { st.msgs with msgs := removeMsg st.msgs.msgs mid } := by
      unfold markDeletedStore
      simp only [hmsg]
      rw [if_neg (fun h => h.1 hfrom)]
      rw [if_pos hfrom]
    unfold handleDeleteMessage
    simp only [hfu, hmsg]
    rw [if_neg (fun h => h.1 hfrom)]
    rw [hdel]
    exact ⟨rfl, findMsg_removeMsg _ _ hnd⟩
  · intro st client mid now fu msg hfu hmsg hnf hto hnd
    have hdel : markDeletedStore st.msgs mid fu.userId now =
        .ok { st.msgs with msgs := softDeleteMsg st.msgs.msgs mid fu.userId now } := by
      unfold markDeletedStore
      simp only [hmsg]
      rw [if_neg (fun h => h.2 hto)]
      rw [if_neg hnf]
    unfold handleDeleteMessage
    simp only [hfu, hmsg]
    rw [if_neg (fun h => h.2 hto)]
    rw [hdel]
    exact ⟨rfl, softDeleteMsg_spec _ _ _ _ hnd⟩
  · intro uid l
    unfold addToSet
    by_cases h : uid ∈ l
    · simp [h]
    · simp [h, List.mem_append]

/-- C4 witness: the three authorization cases at the concrete one-message
store (requester `b2` is a stranger; `a` is the sender; `b` the
recipient). -/
theorem c4_deletion_witness :
    (handleDeleteMessage
        { c4StateA with connected := c4StateA.connected ++ [("c", [⟨"sc", "c", "carol", none⟩])] }
        "sc" 1 9 =
      ⟨{ c4StateA with connected := c4StateA.connected ++ [("c", [⟨"sc", "c", "carol", none⟩])] },
       [.emit "sc" "error" (.errorMsg "You can only delete your own messages")], false⟩) ∧
    ((handleDeleteMessage c4StateA "sa" 1 9).st.msgs.msgs = removeMsg c4StateA.msgs.msgs 1 ∧
     findMsg (handleDeleteMessage c4StateA "sa" 1 9).st.msgs 1 = none) ∧
    ((handleDeleteMessage c4StateA "sb" 1 9).st.msgs.msgs =
        softDeleteMsg c4StateA.msgs.msgs 1 "b" 9 ∧
     (∀ x ∈ (handleDeleteMessage c4StateA "sb" 1 9).st.msgs.msgs,
        x.id = 1 → "b" ∈ x.deletedBy)) ∧
    addToSet "b" (addToSet "b" []) = addToSet "b" [] :=
  ⟨c4_deletion.1 _ "sc" 1 9 ⟨"sc", "c", "carol", none⟩
     { baseMsg 1 "a" "b" MsgType.text 1 with text := some "x" }
     (by decide) (by decide) (by decide),
   c4_deletion.2.1 c4StateA "sa" 1 9 ⟨"sa", "a", "alice", none⟩
     { baseMsg 1 "a" "b" MsgType.text 1 with text := some "x" }
     (by decide) (by decide) (by decide) (by decide),
   c4_deletion.2.2.1 c4StateA "sb" 1 9 ⟨"sb", "b", "bob", none⟩
     { baseMsg 1 "a" "b" MsgType.text 1 with text := some "x" }
     (by decide) (by decide) (by decide) (by decide) (by decide),
   c4_deletion.2.2.2.1 "b" []⟩

/-! ### C2 -/

theorem filterMap_map_none {α β : Type} (f : Act → Option β) (g : α → Act) (l : List α)
    (h : ∀ x, f (g x) = none) : (l.map g).filterMap f = [] := by
  induction l with
  | nil => rfl
  | cons a l ih => simp [List.filterMap_cons, h, ih]

theorem markDeliveredCalls_append (l1 l2 : List Act) :
    markDeliveredCalls (l1 ++ l2) = markDeliveredCalls l1 ++ markDeliveredCalls l2 := by
  simp [markDeliveredCalls, List.filterMap_append]

theorem markDeliveredCalls_groupEmits (mconns : List Conn) (client : String)
    (data : MessageData) :
    markDeliveredCalls (mconns.filterMap (fun cn =>
      if cn.socketId = client then none
      else some (Act.emit cn.socketId "message" (.msgData data)))) = [] := by
  refine List.filterMap_eq_nil.mpr ?_
  intro a ha
  rcases List.mem_filterMap.mp ha with ⟨cn, _, hcn⟩
  by_cases hc : cn.socketId = client
  · rw [if_pos hc] at hcn
    cases hcn
  · rw [if_neg hc] at hcn
    cases hcn
    rfl

theorem groupFanout_calls (reg : Registry) (client : String) (data : MessageData)
    (mid : Nat) (now : Nat) (members : List String) (s : MsgStore) :
    ∀ ids ∈ markDeliveredCalls (groupFanout reg client data mid now members s).2,
      ids = [mid] := by
  induction members generalizing s with
  | nil => intro ids h; simp [groupFanout, markDeliveredCalls] at h
  | cons mem ms ih =>
    intro ids h
    rw [groupFanout] at h
    by_cases hc : (getConn reg mem).isEmpty
    · rw [if_pos hc] at h
      exact ih s ids h
    · rw [if_neg hc] at h
      simp only at h
      rw [markDeliveredCalls_append, markDeliveredCalls_append,
        markDeliveredCalls_groupEmits, List.nil_append] at h
      rcases List.mem_append.mp h with h2 | h2
      · simpa [markDeliveredCalls, List.filterMap] using h2
      · exact ih _ ids h2

theorem groupFanout_offline (reg : Registry) (client : String) (data : MessageData)
    (mid : Nat) (now : Nat) (members : List String) (s : MsgStore)
    (h : ∀ mem ∈ members, getConn reg mem = []) :
    groupFanout reg client data mid now members s = (s, []) := by
  induction members with
  | nil => rfl
  | cons mem ms ih =>
    rw [groupFanout]
    rw [h mem (List.mem_cons_self _ _)]
    exact ih (fun x hx => h x (List.mem_cons_of_mem _ hx))

theorem saveText_spec {s : MsgStore} {f t text : String} {ty : MsgType}
    {gid : Option String} {now : Nat} {saved : Msg} {s1 : MsgStore}
    (h : saveText s f t text ty gid now = .ok (saved, s1)) :
    saved.delivered = false ∧ s1.msgs = s.msgs ++ [saved] := by
  unfold saveText at h
  split at h
  · cases h
  · simp only [Except.ok.injEq, Prod.mk.injEq] at h
    obtain ⟨rfl, rfl⟩ := h
    exact ⟨rfl, rfl⟩

theorem saveEmoji_spec {s : MsgStore} {f t emoji : String} {now : Nat}
    {saved : Msg} {s1 : MsgStore} (h : saveEmoji s f t emoji now = .ok (saved, s1)) :
    saved.delivered = false ∧ s1.msgs = s.msgs ++ [saved] := by
  unfold saveEmoji at h
  split at h
  · cases h
  · simp only [Except.ok.injEq, Prod.mk.injEq] at h
    obtain ⟨rfl, rfl⟩ := h
    exact ⟨rfl, rfl⟩

theorem saveGif_spec {s : MsgStore} {f t gifUrl : String} {now : Nat}
    {saved : Msg} {s1 : MsgStore} (h : saveGif s f t gifUrl now = .ok (saved, s1)) :
    saved.delivered = false ∧ s1.msgs = s.msgs ++ [saved] := by
  unfold saveGif at h
  split at h
  · cases h
  · simp only [Except.ok.injEq, Prod.mk.injEq] at h
    obtain ⟨rfl, rfl⟩ := h
    exact ⟨rfl, rfl⟩

theorem saveSticker_spec {s : MsgStore} {f t stickerUrl : String} {now : Nat}
    {saved : Msg} {s1 : MsgStore}
    (h : saveSticker s f t stickerUrl now = .ok (saved, s1)) :
    saved.delivered = false ∧ s1.msgs = s.msgs ++ [saved] := by
  unfold saveSticker at h
  split at h
  · cases h
  · simp only [Except.ok.injEq, Prod.mk.injEq] at h
    obtain ⟨rfl, rfl⟩ := h
    exact ⟨rfl, rfl⟩

theorem saveFile_spec {s : MsgStore} {f t fileUrl fileName : String} {fileSize : Int}
    {fileType : String} {now : Nat} {saved : Msg} {s1 : MsgStore}
    (h : saveFile s f t fileUrl fileName fileSize fileType now = .ok (saved, s1)) :
    saved.delivered = false ∧ s1.msgs = s.msgs ++ [saved] := by
  unfold saveFile at h
  split at h
  · cases h
  · simp only [Except.ok.injEq, Prod.mk.injEq] at h
    obtain ⟨rfl, rfl⟩ := h
    exact ⟨rfl, rfl⟩

theorem saveForType_spec {s : MsgStore} {fromId : String} {p : MessageEvent}
    {now : Nat} {saved : Msg} {s1 : MsgStore}
    (h : saveForType s fromId p now = .ok (saved, s1)) :
    saved.delivered = false ∧ s1.msgs = s.msgs ++ [saved] := by
  unfold saveForType at h
  split at h
  · exact saveText_spec h
  · split at h
    · exact saveEmoji_spec h
    · split at h
      · exact saveGif_spec h
      · split at h
        · exact saveSticker_spec h
        · split at h
          · exact saveFile_spec h
          · exact saveText_spec h

theorem markDeliveredCalls_cons_emit (sid e : String) (pl : Payload) (l : List Act) :
    markDeliveredCalls (Act.emit sid e pl :: l) = markDeliveredCalls l := rfl

theorem markDeliveredCalls_fanoutEmits (l : List Conn) (data : MessageData) :
    markDeliveredCalls (l.map (fun cn =>
      Act.emit cn.socketId "message" (.msgData data))) = [] :=
  filterMap_map_none _ _ l (fun x => rfl)

def c2State : GWState :=
  ⟨[("u1", [⟨"s1", "u1", "alice", none⟩]),
    ("u2", [⟨"s2", "u2", "bob", none⟩, ⟨"s3", "u2", "bob", none⟩])],
   [⟨"u1", "alice", none, true⟩, ⟨"u2", "bob", none, true⟩],
   [("g", ["u2", "u3"]), ("h", ["u3", "u4"])], ⟨[], 0⟩⟩

/-- C2: for a persisted direct message whose recipient is online, the
handler emits the payload to every connection of the recipient and then
calls `markDelivered([id])` exactly once; every `markDelivered` call the
handler ever makes (including the group loop's) carries exactly this
message's id, and `markDelivered` is idempotent; a direct message to an
offline recipient, or a group message whose recipient key and members
are all offline, produces no `markDelivered` call and stays
`delivered=false` in the store. -/
theorem c2_dispatch :
    (∀ (st : GWState) (client : String) (p : MessageEvent) (now : Nat)
       (fu : Conn) (saved : Msg) (s1 : MsgStore),
      findConnBySocket st.connected client = some fu →
      validTypes.contains (p.type.getD "text") = true →
      saveForType st.msgs fu.userId p now = .ok (saved, s1) →
      p.groupId = none →
      getConn st.connected p.to_ ≠ [] →
      handleMessage st client p now =
        ⟨{ st with msgs := markDeliveredStore s1 [saved.id] now },
         .emit client "message" (.msgData (mkMessageData saved fu p (p.type.getD "text"))) ::
           ((getConn st.connected p.to_).map (fun cn =>
             Act.emit cn.socketId "message"
               (.msgData (mkMessageData saved fu p (p.type.getD "text")))) ++
            [.markDelivered [saved.id]]),
         false⟩) ∧
    (∀ (st : GWState) (client : String) (p : MessageEvent) (now : Nat)
       (fu : Conn) (saved : Msg) (s1 : MsgStore),
      findConnBySocket st.connected client = some fu →
      validTypes.contains (p.type.getD "text") = true →
      saveForType st.msgs fu.userId p now = .ok (saved, s1) →
      p.groupId = none →
      getConn st.connected p.to_ = [] →
      handleMessage st client p now =
        ⟨{ st with msgs := s1 },
         [.emit client "message" (.msgData (mkMessageData saved fu p (p.type.getD "text")))],
         false⟩ ∧
      saved.delivered = false ∧ s1.msgs = st.msgs.msgs ++ [saved]) ∧
    (∀ (st : GWState) (client : String) (p : MessageEvent) (now : Nat)
       (fu : Conn) (saved : Msg) (s1 : MsgStore),
      findConnBySocket st.connected client = some fu →
      validTypes.contains (p.type.getD "text") = true →
      saveForType st.msgs fu.userId p now = .ok (saved, s1) →
      ∀ ids ∈ markDeliveredCalls (handleMessage st client p now).acts, ids = [saved.id]) ∧
    (∀ (st : GWState) (client : String) (p : MessageEvent) (now : Nat)
       (fu : Conn) (saved : Msg) (s1 : MsgStore) (gid : String) (members : List String),
      findConnBySocket st.connected client = some fu →
      validTypes.contains (p.type.getD "text") = true →
      saveForType st.msgs fu.userId p now = .ok (saved, s1) →
      p.groupId = some gid →
      findGroup st.groups gid = some members →
      getConn st.connected p.to_ = [] →
      (∀ mem ∈ members, getConn st.connected mem = []) →
      handleMessage st client p now =
        ⟨{ st with msgs := s1 },
         [.emit client "message" (.msgData (mkMessageData saved fu p (p.type.getD "text")))],
         false⟩ ∧
      saved.delivered = false ∧ s1.msgs = st.msgs.msgs ++ [saved]) ∧
    (∀ (s : MsgStore) (ids : List Nat) (t : Nat),
      markDeliveredStore (markDeliveredStore s ids t) ids t = markDeliveredStore s ids t) := by
  refine ⟨?_, ?_, ?_, ?_, ?_⟩
  · intro st client p now fu saved s1 hfu hvt hsave hgid hrc
    have hne : (getConn st.connected p.to_).isEmpty = false := by
      cases hq : getConn st.connected p.to_ with
      | nil => exact absurd hq hrc
      | cons a t => rfl
    unfold handleMessage
    simp only [hfu, hvt, Bool.not_true, Bool.false_eq_true, if_false, hsave, hgid,
      hne, List.cons_append, List.append_nil]
  · intro st client p now fu saved s1 hfu hvt hsave hgid hrc
    refine ⟨?_, (saveForType_spec hsave).1, (saveForType_spec hsave).2⟩
    unfold handleMessage
    simp only [hfu, hvt, Bool.not_true, Bool.false_eq_true, if_false, hsave, hgid,
      hrc, List.isEmpty_nil, if_true, List.cons_append, List.append_nil]
  · intro st client p now fu saved s1 hfu hvt hsave ids hids
    unfold handleMessage at hids
    simp only [hfu, hvt, Bool.not_true, Bool.false_eq_true, if_false, hsave] at hids
    rw [List.cons_append, markDeliveredCalls_cons_emit, markDeliveredCalls_append] at hids
    rcases List.mem_append.mp hids with h2 | h2
    · by_cases hc : (getConn st.connected p.to_).isEmpty
      · simp only [hc, if_true] at h2
        simp [markDeliveredCalls] at h2
      · simp only [hc, Bool.false_eq_true, if_false] at h2
        rw [markDeliveredCalls_append, markDeliveredCalls_fanoutEmits,
          List.nil_append] at h2
        simpa [markDeliveredCalls, List.filterMap] using h2
    · cases hg : p.groupId with
      | none =>
        rw [hg] at h2
        simp [markDeliveredCalls] at h2
      | some gid =>
        rw [hg] at h2
        simp only [] at h2
        cases hfg : findGroup st.groups gid with
        | none =>
          rw [hfg] at h2
          simp [markDeliveredCalls] at h2
        | some members =>
          rw [hfg] at h2
          exact groupFanout_calls _ _ _ _ _ _ _ ids h2
  · intro st client p now fu saved s1 gid members hfu hvt hsave hgid hmem hrc hall
    refine ⟨?_, (saveForType_spec hsave).1, (saveForType_spec hsave).2⟩
    unfold handleMessage
    simp only [hfu, hvt, Bool.not_true, Bool.false_eq_true, if_false, hsave, hgid, hmem,
      hrc, List.isEmpty_nil, if_true]
    rw [groupFanout_offline _ _ _ _ _ _ _ hall]
    simp
  · intro s ids t
    unfold markDeliveredStore
    simp only [List.map_map]
    congr 1
    apply List.map_congr_left
    intro m hm
    by_cases hin : m.id ∈ ids
    · simp [Function.comp, hin]
    · simp [Function.comp, hin]

def c2Saved : Msg := { baseMsg 0 "u1" "u2" MsgType.text 7 with text := some "hi" }

def c2SavedOff : Msg := { baseMsg 0 "u1" "u9" MsgType.text 7 with text := some "hi" }

def c2SavedGrp : Msg :=
  { baseMsg 0 "u1" "h" MsgType.text 7 with text := some "hi", groupId := some "h" }

/-- C2 witness: the dispatch behaviors at a concrete two-device
recipient, a concrete offline recipient and a concrete all-offline
group. -/
theorem c2_dispatch_witness :
    (handleMessage c2State "s1" ⟨"u2", "hi", none, none, none, none, none⟩ 7 =
      ⟨{ c2State with msgs := markDeliveredStore ⟨[c2Saved], 1⟩ [0] 7 },
       .emit "s1" "message" (.msgData (mkMessageData c2Saved ⟨"s1", "u1", "alice", none⟩
          ⟨"u2", "hi", none, none, none, none, none⟩ "text")) ::
         ((getConn c2State.connected "u2").map (fun cn =>
           Act.emit cn.socketId "message" (.msgData (mkMessageData c2Saved
             ⟨"s1", "u1", "alice", none⟩ ⟨"u2", "hi", none, none, none, none, none⟩ "text"))) ++
          [.markDelivered [0]]),
       false⟩) ∧
    (handleMessage c2State "s1" ⟨"u9", "hi", none, none, none, none, none⟩ 7 =
      ⟨{ c2State with msgs := ⟨[c2SavedOff], 1⟩ },
       [.emit "s1" "message" (.msgData (mkMessageData c2SavedOff ⟨"s1", "u1", "alice", none⟩
          ⟨"u9", "hi", none, none, none, none, none⟩ "text"))],
       false⟩ ∧ c2SavedOff.delivered = false ∧
       (⟨[c2SavedOff], 1⟩ : MsgStore).msgs = c2State.msgs.msgs ++ [c2SavedOff]) ∧
    (∀ ids ∈ markDeliveredCalls
        (handleMessage c2State "s1" ⟨"u2", "hi", none, none, none, none, none⟩ 7).acts,
      ids = [0]) ∧
    (handleMessage c2State "s1" ⟨"h", "hi", none, none, none, none, some "h"⟩ 7 =
      ⟨{ c2State with msgs := ⟨[c2SavedGrp], 1⟩ },
       [.emit "s1" "message" (.msgData (mkMessageData c2SavedGrp ⟨"s1", "u1", "alice", none⟩
          ⟨"h", "hi", none, none, none, none, some "h"⟩ "text"))],
       false⟩ ∧ c2SavedGrp.delivered = false ∧
       (⟨[c2SavedGrp], 1⟩ : MsgStore).msgs = c2State.msgs.msgs ++ [c2SavedGrp]) ∧
    markDeliveredStore (markDeliveredStore ⟨[c2Saved], 1⟩ [0] 7) [0] 7 =
      markDeliveredStore ⟨[c2Saved], 1⟩ [0] 7 :=
  ⟨c2_dispatch.1 c2State "s1" ⟨"u2", "hi", none, none, none, none, none⟩ 7
     ⟨"s1", "u1", "alice", none⟩ c2Saved ⟨[c2Saved], 1⟩
     (by decide) (by decide) (by rfl) (by rfl) (by decide),
   c2_dispatch.2.1 c2State "s1" ⟨"u9", "hi", none, none, none, none, none⟩ 7
     ⟨"s1", "u1", "alice", none⟩ c2SavedOff ⟨[c2SavedOff], 1⟩
     (by decide) (by decide) (by rfl) (by rfl) (by decide),
   c2_dispatch.2.2.1 c2State "s1" ⟨"u2", "hi", none, none, none, none, none⟩ 7
     ⟨"s1", "u1", "alice", none⟩ c2Saved ⟨[c2Saved], 1⟩
     (by decide) (by decide) (by rfl),
   c2_dispatch.2.2.2.1 c2State "s1" ⟨"h", "hi", none, none, none, none, some "h"⟩ 7
     ⟨"s1", "u1", "alice", none⟩ c2SavedGrp ⟨[c2SavedGrp], 1⟩ "h" ["u3", "u4"]
     (by decide) (by decide) (by rfl) (by rfl) (by decide) (by decide) (by decide),
   c2_dispatch.2.2.2.2 ⟨[c2Saved], 1⟩ [0] 7⟩

/-! ### C5 -/

instance (st : GWState) : Decidable (capInv st) := by
  unfold capInv
  infer_instance

theorem mem_setConn {l : Registry} {k : String} {v : List Conn} {p : String × List Conn}
    (h : p ∈ setConn l k v) : p ∈ l ∨ p = (k, v) := by
  induction l with
  | nil => simpa [setConn] using h
  | cons q qs ih =>
    rw [setConn] at h
    by_cases hc : q.1 = k
    · rw [if_pos hc] at h
      rcases List.mem_cons.mp h with rfl | h2
      · exact Or.inr rfl
      · exact Or.inl (List.mem_cons_of_mem _ h2)
    · rw [if_neg hc] at h
      rcases List.mem_cons.mp h with rfl | h2
      · exact Or.inl (List.mem_cons_self _ _)
      · rcases ih h2 with h3 | h3
        · exact Or.inl (List.mem_cons_of_mem _ h3)
        · exact Or.inr h3

theorem mem_deleteConn {l : Registry} {k : String} {p : String × List Conn}
    (h : p ∈ deleteConn l k) : p ∈ l := by
  induction l with
  | nil => simpa [deleteConn] using h
  | cons q qs ih =>
    rw [deleteConn] at h
    by_cases hc : q.1 = k
    · rw [if_pos hc] at h
      exact List.mem_cons_of_mem _ h
    · rw [if_neg hc] at h
      rcases List.mem_cons.mp h with rfl | h2
      · exact List.mem_cons_self _ _
      · exact List.mem_cons_of_mem _ (ih h2)

theorem length_eraseIdx_le (l : List Conn) (i : Nat) :
    (l.eraseIdx i).length ≤ l.length := by
  induction l generalizing i with
  | nil => simp [List.eraseIdx]
  | cons a t ih =>
    cases i with
    | zero => simp [List.eraseIdx]
    | succ j =>
      have := ih j
      simp only [List.eraseIdx, List.length_cons]
      omega

theorem capInv_handleConnection (st : GWState) (c : String) (a : Option String)
    (now : Nat) (h : capInv st) : capInv (handleConnection st c a now).st := by
  unfold handleConnection
  cases a with
  | none => exact h
  | some uid =>
    simp only []
    cases hu : findUserById st.users uid with
    | none => simp only [hu]; exact h
    | some u =>
      simp only [hu]
      by_cases hcap : maxConnectionsPerUser ≤ (getConn st.connected uid).length
      · rw [if_pos hcap]
        exact h
      · rw [if_neg hcap]
        intro p hp
        rcases mem_setConn hp with h2 | h2
        · exact h p h2
        · subst h2
          simp only [List.length_append, List.length_cons, List.length_nil]
          unfold maxConnectionsPerUser at hcap ⊢
          omega

theorem capInv_handleDisconnect (st : GWState) (c : String) (h : capInv st) :
    capInv (handleDisconnect st c).st := by
  unfold handleDisconnect
  cases hf : st.connected.find? (fun e => e.2.any (fun cn => decide (cn.socketId = c))) with
  | none => exact h
  | some q =>
    obtain ⟨uid, socks⟩ := q
    have hmem : (uid, socks) ∈ st.connected := List.mem_of_find?_eq_some hf
    simp only []
    by_cases he : (socks.eraseIdx (socks.findIdx (fun cn => decide (cn.socketId = c)))).isEmpty
    · rw [if_pos he]
      intro p hp
      exact h p (mem_deleteConn hp)
    · rw [if_neg he]
      intro p hp
      rcases mem_setConn hp with h2 | h2
      · exact h p h2
      · subst h2
        exact le_trans (length_eraseIdx_le _ _) (h _ hmem)

theorem connected_handleTyping (st : GWState) (c : String) (p : TypingEvent) :
    (handleTyping st c p).st.connected = st.connected := by
  unfold handleTyping
  cases findConnBySocket st.connected c <;> rfl

theorem connected_handleMessage (st : GWState) (c : String) (p : MessageEvent) (now : Nat) :
    (handleMessage st c p now).st.connected = st.connected := by
  unfold handleMessage
  cases findConnBySocket st.connected c with
  | none => rfl
  | some fu =>
    simp only []
    split
    · rfl
    · cases saveForType st.msgs fu.userId p now with
      | error e => rfl
      | ok v =>
        obtain ⟨saved, s1⟩ := v
        rfl

theorem connected_handleLocation (st : GWState) (c : String) (p : LocationEvent) (now : Nat) :
    (handleLocation st c p now).st.connected = st.connected := by
  unfold handleLocation
  cases findConnBySocket st.connected c with
  | none => rfl
  | some fu =>
    simp only []
    cases saveLocation st.msgs fu.userId p.to_ p.latitude p.longitude (p.isLive.getD false) now with
    | error e => rfl
    | ok v =>
      obtain ⟨saved, s1⟩ := v
      simp only []
      split <;> rfl

theorem connected_handleWebView (st : GWState) (c : String) (p : WebViewEvent) (now : Nat) :
    (handleWebView st c p now).st.connected = st.connected := by
  unfold handleWebView
  cases findConnBySocket st.connected c with
  | none => rfl
  | some fu =>
    simp only []
    cases saveWebView st.msgs fu.userId p.to_ p.url p.title p.description p.imageUrl now with
    | error e => rfl
    | ok v =>
      obtain ⟨saved, s1⟩ := v
      simp only []
      split <;> rfl

theorem connected_handleGetConversation (st : GWState) (c w : String) :
    (handleGetConversation st c w).st.connected = st.connected := by
  unfold handleGetConversation
  cases findConnBySocket st.connected c <;> rfl

theorem connected_handleUserOnline (st : GWState) (c u : String) :
    (handleUserOnline st c u).st.connected = st.connected := by
  unfold handleUserOnline
  cases findConnBySocket st.connected c with
  | none => rfl
  | some fu =>
    simp only []
    split <;> rfl

theorem connected_handleUserOffline (st : GWState) (c u : String) :
    (handleUserOffline st c u).st.connected = st.connected := by
  unfold handleUserOffline
  cases findConnBySocket st.connected c with
  | none => rfl
  | some fu =>
    simp only []
    split <;> rfl

theorem connected_handleDeleteMessage (st : GWState) (c : String) (mid now : Nat) :
    (handleDeleteMessage st c mid now).st.connected = st.connected := by
  unfold handleDeleteMessage
  cases findConnBySocket st.connected c with
  | none => rfl
  | some fu =>
    simp only []
    cases findMsg st.msgs mid with
    | none => rfl
    | some msg =>
      simp only []
      split
      · rfl
      · cases markDeletedStore st.msgs mid fu.userId now <;> rfl

theorem capInv_applyEvent (st : GWState) (e : Event) (h : capInv st) :
    capInv (applyEvent st e).st := by
  cases e with
  | evConnect c a now => exact capInv_handleConnection st c a now h
  | evDisconnect c => exact capInv_handleDisconnect st c h
  | evTyping c p =>
    intro q hq
    rw [show (applyEvent st (.evTyping c p)).st.connected = st.connected from
      connected_handleTyping st c p] at hq
    exact h q hq
  | evMessage c p now =>
    intro q hq
    rw [show (applyEvent st (.evMessage c p now)).st.connected = st.connected from
      connected_handleMessage st c p now] at hq
    exact h q hq
  | evLocation c p now =>
    intro q hq
    rw [show (applyEvent st (.evLocation c p now)).st.connected = st.connected from
      connected_handleLocation st c p now] at hq
    exact h q hq
  | evWebView c p now =>
    intro q hq
    rw [show (applyEvent st (.evWebView c p now)).st.connected = st.connected from
      connected_handleWebView st c p now] at hq
    exact h q hq
  | evGetConversation c w =>
    intro q hq
    rw [show (applyEvent st (.evGetConversation c w)).st.connected = st.connected from
      connected_handleGetConversation st c w] at hq
    exact h q hq
  | evUserOnline c u =>
    intro q hq
    rw [show (applyEvent st (.evUserOnline c u)).st.connected = st.connected from
      connected_handleUserOnline st c u] at hq
    exact h q hq
  | evUserOffline c u =>
    intro q hq
    rw [show (applyEvent st (.evUserOffline c u)).st.connected = st.connected from
      connected_handleUserOffline st c u] at hq
    exact h q hq
  | evDeleteMessage c i now =>
    intro q hq
    rw [show (applyEvent st (.evDeleteMessage c i now)).st.connected = st.connected from
      connected_handleDeleteMessage st c i now] at hq
    exact h q hq

theorem capInv_runEvents (st : GWState) (es : List Event) (h : capInv st) :
    capInv (runEvents st es) := by
  induction es generalizing st with
  | nil => exact h
  | cons e es ih => exact ih _ (capInv_applyEvent st e h)

def c5State : GWState :=
  ⟨[("u1", [⟨"s1", "u1", "alice", none⟩, ⟨"s2", "u1", "alice", none⟩,
            ⟨"s3", "u1", "alice", none⟩, ⟨"s4", "u1", "alice", none⟩,
            ⟨"s5", "u1", "alice", none⟩])],
   [⟨"u1", "alice", none, true⟩], [], ⟨[], 0⟩⟩

/-- C5: a connect for a user who already holds `cap = 5` registered
connections is rejected — the state (hence all 5 existing connections)
is untouched and the handler's only actions are one `error` emit and a
transport disconnect; moreover the cap is an invariant: it is preserved
by every inbound event and therefore holds after any run of events from
a registry-empty initial state. -/
theorem c5_cap :
    (∀ (st : GWState) (client uid : String) (u : User) (now : Nat),
      findUserById st.users uid = some u →
      (getConn st.connected uid).length = maxConnectionsPerUser →
      handleConnection st client (some uid) now =
        ⟨st, [.emit client "error" (.errorMsg "Maximum connections exceeded"),
              .disconnectClient client], false⟩) ∧
    (∀ (st : GWState) (es : List Event), capInv st → capInv (runEvents st es)) ∧
    (∀ (users : List User) (groups : List (String × List String)) (es : List Event),
      capInv (runEvents (initGW users groups) es)) := by
  refine ⟨?_, fun st es h => capInv_runEvents st es h, ?_⟩
  · intro st client uid u now hu hlen
    unfold handleConnection
    simp only [hu]
    rw [if_pos (le_of_eq hlen.symm)]
  · intro users groups es
    refine capInv_runEvents _ es ?_
    intro p hp
    simp [initGW] at hp

/-- C5 witness: the rejection at a concrete 5-connection state and the
invariant after a concrete event run. -/
theorem c5_cap_witness :
    (handleConnection c5State "s6" (some "u1") 3 =
      ⟨c5State, [.emit "s6" "error" (.errorMsg "Maximum connections exceeded"),
                 .disconnectClient "s6"], false⟩) ∧
    capInv (runEvents c5State [.evConnect "s6" (some "u1") 3, .evDisconnect "s1"]) :=
  ⟨c5_cap.1 c5State "s6" "u1" ⟨"u1", "alice", none, true⟩ 3 (by decide) (by decide),
   c5_cap.2.1 c5State [.evConnect "s6" (some "u1") 3, .evDisconnect "s1"] (by decide)⟩
